import Mathlib

set_option autoImplicit false

namespace Dalchemy

/-- Shallow embedding of the Python runtime values manipulated by the ORM
(src/orm/queryset.py, src/orm/base.py).  Numbers, strings, booleans, lists and
dicts are the plain Python values; pSecret models a pydantic SecretStr wrapping
its raw text; pDatetime models a (naive) datetime/date given by its integer
epoch seconds; pFloat models the float produced by datetime.timestamp();
pJsonStr v models the text produced by json.dumps on the value v (the
serialization itself is external library code, kept opaque: json.loads is its
exact inverse); pEntity models an instance of a Base model by its field
mapping. -/
inductive PValue where
  | pNone
  | pInt (n : Int)
  | pFloat (n : Int)
  | pBool (b : Bool)
  | pStr (s : String)
  | pJsonStr (v : PValue)
  | pList (l : List PValue)
  | pDict (d : List (String × PValue))
  | pSecret (s : String)
  | pDatetime (t : Int)
  | pEntity (flds : List (String × PValue))

open PValue

/-- Python truthiness of a value, as used by conditions such as
`if values[0].get("id")` and `passed_value or default`. -/
def pvTruthy : PValue → Bool
  | pNone => false
  | pInt n => n != 0
  | pFloat n => n != 0
  | pBool b => b
  | pStr s => s != ""
  | pJsonStr _ => true
  | pList l => !l.isEmpty
  | pDict d => !d.isEmpty
  | pSecret _ => true
  | pDatetime _ => true
  | pEntity _ => true

/-- Python `a or b` on values (used by get_default_values). -/
def pvOr (a b : PValue) : PValue := if pvTruthy a then a else b

/-- Lookup in a Python dict represented as an association list (first match). -/
def lookupF (k : String) : List (String × PValue) → Option PValue
  | [] => none
  | (k₂, v) :: rest => if k₂ = k then some v else lookupF k rest

@[simp] theorem lookupF_nil (k : String) : lookupF k [] = none := rfl

@[simp] theorem lookupF_cons (k k₂ : String) (v : PValue)
    (rest : List (String × PValue)) :
    lookupF k ((k₂, v) :: rest) = if k₂ = k then some v else lookupF k rest := rfl

/-- A Python dict of field name to value: a record instance, a row, or a
redis hash, all of which the source treats as (ordered) string-keyed dicts. -/
abbrev RDict := List (String × PValue)

/-- Python dict assignment d[k] = v: overwrite in place if the key exists,
append otherwise. -/
def dictAssign (k : String) (v : PValue) : RDict → RDict
  | [] => [(k, v)]
  | (k₂, v₂) :: rest =>
    if k₂ = k then (k₂, v) :: rest else (k₂, v₂) :: dictAssign k v rest

/-- Python dict.pop(k, None): drop the key if present. -/
def dictRemove (k : String) (d : RDict) : RDict := d.filter (fun kv => kv.1 ≠ k)

/-- Python double-star dict merge, right operand winning, as in the source line
new_kwargs = \x7b**new_kwargs, **missing_kwargs\x7d. -/
def mergeDict (a b : RDict) : RDict :=
  (a.map (fun kv => (kv.1, ((lookupF kv.1 b).getD kv.2)))) ++
    b.filter (fun kv => (lookupF kv.1 a).isNone)

/-- getattr(obj, k) on a pydantic model instance. Instances built by the
embedded constructor always carry every declared field, so the missing case
(AttributeError) is modelled by pNone and is unreachable in the theorems,
which all construct their instances through the embedded code paths. -/
def getattrD (r : RDict) (k : String) : PValue := (lookupF k r).getD pNone

/- String helpers. The source splits filter keys on the reserved delimiter
with str.split and joins with str.join; these are reimplemented over the
character list so that concrete evaluation reduces in the kernel. -/

/-- Split a string on the two-character delimiter of filter paths. -/
def splitDunderAux (cur : List Char) (acc : List String) : List Char → List String
  | [] => acc ++ [String.mk cur.reverse]
  | '_' :: '_' :: rest => splitDunderAux [] (acc ++ [String.mk cur.reverse]) rest
  | c :: rest => splitDunderAux (c :: cur) acc rest

/-- Python key.split on the double underscore delimiter. -/
def splitDunder (s : String) : List String := splitDunderAux [] [] s.toList

/-- Python membership test of the delimiter in the key: true exactly when the
split yields more than one part. -/
def hasDunder (s : String) : Bool := (splitDunder s).length != 1

/-- Python join with the double underscore delimiter. -/
def joinDunder (parts : List String) : String := String.intercalate "__" parts

/-- Python c in value for a single character. -/
def strHasChar (c : Char) (s : String) : Bool := s.toList.contains c

/-- Python value.replace(c, replacement) for a single-character needle. -/
def strReplaceChar (c : Char) (repl : List Char) (s : String) : String :=
  String.mk (s.toList.flatMap (fun ch => if ch = c then repl else [ch]))

/-- The wildcard characters escaped by QuerySet.ESCAPE_CHARACTERS. -/
def escapeCharacters : List Char := ['%', '_']

/-- has_escaped_character: any wildcard character occurs in the literal. -/
def hasEscapedCharacter (s : String) : Bool :=
  escapeCharacters.any (fun c => strHasChar c s)

/-- The escape loop of QuerySet.filter: each wildcard character is replaced by
a backslash followed by itself, in declaration order. -/
def escapeWildcards (s : String) : String :=
  escapeCharacters.foldl (fun v c => strReplaceChar c ['\\', c] v) s

/-- A default supplier declared in Config.table_config: either a constant
(such as True on is_active) or a zero-argument callable invoked at write time.
The only callable used by the repository is datetime.now, modelled as reading
the ambient clock. -/
inductive DSpec where
  | dConst (v : PValue)
  | dNow

/-- Truthiness of the object stored under the default key of a table_config
entry, as tested by any([value.get("default"), value.get("onupdate")]):
a function object is truthy, a constant is truthy per Python rules. -/
def dspecTruthy : Option DSpec → Bool
  | none => false
  | some (.dConst v) => pvTruthy v
  | some .dNow => true

/-- One table_config entry of a model Config: the optional column-name
override used for foreign keys, the optional default supplier, and whether an
on-update supplier is declared (the repository only uses datetime.now). -/
structure ColCfg where
  colName : Option String := none
  cfgDefault : Option DSpec := none
  onupdate : Bool := false

mutual
/-- The resolved pydantic field type, as inspected by the source through
value.type_: plain scalars, bool, datetime/date, SecretStr, a json field
(type_ is dict or list), or a related Base model class (fields.Foreign),
which carries the target model metadata. -/
inductive FType where
  | tInt
  | tStr
  | tBool
  | tDatetime
  | tSecret
  | tJson
  | tEntity (target : ModelSchema)

/-- One declared model field: its name, resolved type, and pydantic default
(none models a required field). -/
inductive FieldD where
  | mk (name : String) (ftype : FType) (fdefault : Option PValue)

/-- The per-model metadata the ORM introspects at runtime: Config.table_name,
the optional Config.cache_field, Config.cache_key (used by the read-cache
tier), the declared pydantic fields in order, and Config.table_config. -/
inductive ModelSchema where
  | mk (tableName : String) (cacheField : Option String) (cacheKeyName : String)
      (fields : List FieldD) (tableConfig : List (String × ColCfg))
end

def FieldD.name : FieldD → String
  | .mk n _ _ => n

def FieldD.ftype : FieldD → FType
  | .mk _ t _ => t

def FieldD.fdefault : FieldD → Option PValue
  | .mk _ _ d => d

def ModelSchema.tableName : ModelSchema → String
  | .mk t _ _ _ _ => t

def ModelSchema.cacheField : ModelSchema → Option String
  | .mk _ c _ _ _ => c

def ModelSchema.cacheKeyName : ModelSchema → String
  | .mk _ _ ck _ _ => ck

def ModelSchema.fields : ModelSchema → List FieldD
  | .mk _ _ _ f _ => f

def ModelSchema.tableConfig : ModelSchema → List (String × ColCfg)
  | .mk _ _ _ _ tc => tc

/-- model_fields()[f]: lookup of a declared field, none models the KeyError. -/
def ModelSchema.lookupField (m : ModelSchema) (f : String) : Option FieldD :=
  m.fields.find? (fun fd => fd.name = f)

def FType.isEntity : FType → Bool
  | .tEntity _ => true
  | _ => false

def FType.isJson : FType → Bool
  | .tJson => true
  | _ => false

def FType.isBool : FType → Bool
  | .tBool => true
  | _ => false

def FType.isDatetime : FType → Bool
  | .tDatetime => true
  | _ => false

/-- Base.is_related_field: inspects the declared type of the named field;
none models the KeyError raised by model_fields()[field] on unknown names. -/
def isRelatedField (m : ModelSchema) (f : String) : Option Bool :=
  (m.lookupField f).map (fun fd => fd.ftype.isEntity)

/-- Base.is_json_field, with the same KeyError convention. -/
def isJsonField (m : ModelSchema) (f : String) : Option Bool :=
  (m.lookupField f).map (fun fd => fd.ftype.isJson)

/-- Base.get_class_field_from_db_name: a declared field name resolves to
itself; otherwise the table_config entries are scanned for a matching name
override; None (here none) when the column resolves to nothing. -/
def getClassFieldFromDbName (m : ModelSchema) (dbName : String) :
    Option (String × FType) :=
  match m.lookupField dbName with
  | some fd => some (dbName, fd.ftype)
  | none =>
    match m.tableConfig.find? (fun kc => kc.2.colName = some dbName) with
    | some (key, _) => (m.lookupField key).map (fun fd => (key, fd.ftype))
    | none => none

/-- Base.get_related_field_class: the target model class of a relationship
field, or the class itself for a non-relationship field; none models the
KeyError on an unknown field name. -/
def getRelatedFieldClass (m : ModelSchema) (key : String) : Option ModelSchema :=
  match m.lookupField key with
  | none => none
  | some fd =>
    match fd.ftype with
    | .tEntity target => some target
    | _ => some m

/-- Base.get_field_db_name: the persisted column name of a field; for a
relationship field this is the table_config name override. none models the
AttributeError when a relationship field has no table_config entry, which no
model of the repository exhibits. -/
def getFieldDbName (m : ModelSchema) (f : String) : Option String :=
  match isRelatedField m f with
  | some true => (m.tableConfig.find? (fun kc => kc.1 = f)).bind (fun kc => kc.2.colName)
  | _ => some f

/-- The column names of the table built by Base.build_table: one column per
declared field, named by its persisted column name. -/
def columnNames (m : ModelSchema) : List String :=
  m.fields.map (fun fd => (getFieldDbName m fd.name).getD fd.name)

/-- table.columns[name]: resolve a column on the built table of a model,
yielding the (table, column) pair; none models the KeyError. -/
def resolveColumn (m : ModelSchema) (name : String) : Option (String × String) :=
  if name ∈ columnNames m then some (m.tableName, name) else none

/- Cache encoding and decoding (src/orm/queryset.py lines 46 to 146, and
Base.as_dict in src/orm/base.py). -/

/-- json.loads: inverse of the opaque serialization pJsonStr; loading any
other string raises (none). Non-string inputs also raise a TypeError. -/
def jsonLoads : PValue → Option PValue
  | pJsonStr v => some v
  | _ => none

/-- Python type(x) == str: both a plain string and a serialized json text are
Python strings. -/
def isPyStr : PValue → Bool
  | pStr _ => true
  | pJsonStr _ => true
  | _ => false

/-- datetime.timestamp(): the float epoch seconds of a datetime or date. -/
def pvTimestamp : PValue → PValue
  | pDatetime t => pFloat t
  | v => v

/-- Python float(x) as applied by redis_dict_to_obj to an epoch value; the
failing conversions raise and are unreachable under the well-typedness
hypotheses of the theorems below (modelled as 0). -/
def pvFloatOf : PValue → Int
  | pFloat n => n
  | pInt n => n
  | pDatetime t => t
  | _ => 0

/-- module-level to_redis_dict (queryset.py line 46): booleans to 0/1, lists
and dicts to their json text, datetimes to epoch seconds, SecretStr to its
raw text, everything else verbatim; the exclude filter only applies in the
final branch, exactly as in the source. -/
def to_redis_dict (exclude : Option (List String)) : RDict → RDict
  | [] => []
  | (k, v) :: rest =>
    let tail := to_redis_dict exclude rest
    match v with
    | pBool b => (k, pInt (if b then 1 else 0)) :: tail
    | pList l => (k, pJsonStr (pList l)) :: tail
    | pDict d => (k, pJsonStr (pDict d)) :: tail
    | pDatetime t => (k, pFloat t) :: tail
    | pSecret s => (k, pStr s) :: tail
    | v =>
      match exclude with
      | some ex => if k ∈ ex then tail else (k, v) :: tail
      | none => (k, v) :: tail

/-- value.default in [[], \x7b\x7d] as tested by to_python_dict. -/
def defaultInEmptyPair (fd : FieldD) : Bool :=
  match fd.fdefault with
  | some (pList []) => true
  | some (pDict []) => true
  | _ => false

/-- value.default == [] as tested by redis_dict_to_obj. -/
def defaultIsEmptyList (fd : FieldD) : Bool :=
  match fd.fdefault with
  | some (pList []) => true
  | _ => false

/-- The per-field decode step of to_python_dict: bool fields through Python
bool(), json-ish string values through json.loads, everything else verbatim.
A json.loads failure raises, modelled pNone and excluded by the
well-typedness hypotheses. -/
def pyVal (fd : FieldD) (x : PValue) : PValue :=
  if fd.ftype.isBool then pBool (pvTruthy x)
  else if (fd.ftype.isJson || defaultInEmptyPair fd) && isPyStr x then
    (jsonLoads x).getD pNone
  else x

/-- module-level to_python_dict (queryset.py line 66): iterates the declared
fields applying the per-field decode to redis_dict[key]. Dict access raises
on a missing key; that case is modelled by pNone and excluded by the
well-typedness hypotheses. -/
def to_python_dict (classFields : List FieldD) (redisDict : RDict) : RDict :=
  classFields.map (fun fd => (fd.name, pyVal fd (getattrD redisDict fd.name)))

/-- Base.as_dict: self.dict() with SecretStr values unwrapped to raw text. -/
def as_dict : RDict → RDict
  | [] => []
  | (k, pSecret s) :: rest => (k, pStr s) :: as_dict rest
  | (k, v) :: rest => (k, v) :: as_dict rest

/-- QuerySetMixin.dict_to_redis_dict (queryset.py line 81): like
to_redis_dict but dict values are serialized after an inner to_redis_dict
pass, and Base instances are serialized as the json text of their
redis-encoded as_dict mapping. -/
def dict_to_redis_dict (exclude : Option (List String)) : RDict → RDict
  | [] => []
  | (k, v) :: rest =>
    let tail := dict_to_redis_dict exclude rest
    match v with
    | pBool b => (k, pInt (if b then 1 else 0)) :: tail
    | pList l => (k, pJsonStr (pList l)) :: tail
    | pDict d => (k, pJsonStr (pDict (to_redis_dict none d))) :: tail
    | pDatetime t => (k, pFloat t) :: tail
    | pEntity flds => (k, pJsonStr (pDict (to_redis_dict none (as_dict flds)))) :: tail
    | v =>
      match exclude with
      | some ex => if k ∈ ex then tail else (k, v) :: tail
      | none => (k, v) :: tail

/-- QuerySetMixin.obj_to_redis_dict (queryset.py line 104): iterates the
declared fields reading getattr(obj, key); bool fields to 0/1, datetime
fields to epoch seconds, everything else verbatim subject to exclude. -/
def obj_to_redis_dict (classFields : List FieldD) (exclude : Option (List String))
    (obj : RDict) : RDict :=
  classFields.foldr (fun fd tail =>
    let x := getattrD obj fd.name
    if fd.ftype.isBool then (fd.name, pInt (if pvTruthy x then 1 else 0)) :: tail
    else if fd.ftype.isDatetime then (fd.name, pvTimestamp x) :: tail
    else
      match exclude with
      | some ex => if fd.name ∈ ex then tail else (fd.name, x) :: tail
      | none => (fd.name, x) :: tail) []

/-- Pydantic value coercion applied when a model class is constructed with
keyword values, restricted to the conversions exercised by the embedded code
paths: ints to bool, numeric epoch values to datetime, raw text to SecretStr.
Values already of the declared shape pass through unchanged. -/
def coerce : FType → PValue → PValue
  | .tBool, pInt n => pBool (n != 0)
  | .tDatetime, pFloat t => pDatetime t
  | .tDatetime, pInt t => pDatetime t
  | .tSecret, pStr s => pSecret s
  | _, v => v

/-- klass(**actual_dict): pydantic construction. Every declared field is
populated from the passed mapping (coerced) or from its declared default; a
missing required field raises a ValidationError, modelled as pNone and
unreachable under the hypotheses of the theorems. -/
def construct (classFields : List FieldD) (vals : RDict) : RDict :=
  classFields.map (fun fd =>
    (fd.name,
      match lookupF fd.name vals with
      | some v => coerce fd.ftype v
      | none => fd.fdefault.getD pNone))

/-- QuerySetMixin.marshal_to_class: an instance of the class passes through;
otherwise the json text is loaded and pushed through to_python_dict and the
class constructor. A load failure raises, modelled pNone. -/
def marshal_to_class (target : ModelSchema) (x : PValue) : PValue :=
  match x with
  | pEntity flds => pEntity flds
  | x =>
    match jsonLoads x with
    | some (pDict d) => pEntity (construct target.fields (to_python_dict target.fields d))
    | _ => pNone

/-- The per-field decode step of redis_dict_to_obj: bool fields through
Python bool(), json-ish string values through json.loads, Base-typed fields
through marshal_to_class, datetime fields through fromtimestamp, the rest
verbatim, in the branch order of the source. -/
def decVal (fd : FieldD) (x : PValue) : PValue :=
  if fd.ftype.isBool then pBool (pvTruthy x)
  else if (fd.ftype.isJson || defaultIsEmptyList fd) && isPyStr x then
    (jsonLoads x).getD pNone
  else
    match fd.ftype with
    | .tEntity target => marshal_to_class target x
    | .tDatetime => pDatetime (pvFloatOf x)
    | _ => x

/-- QuerySetMixin.redis_dict_to_obj (queryset.py line 119): rebuilds a typed
instance from a flat cache mapping, skipping the id key, then constructs the
class. Dict access as_dict[key] raises on a missing key, modelled pNone and
excluded by the well-typedness hypotheses. -/
def redis_dict_to_obj (classFields : List FieldD) (asDict : RDict) : RDict :=
  construct classFields (classFields.filterMap (fun fd =>
    if fd.name = "id" then none
    else some (fd.name, decVal fd (getattrD asDict fd.name))))

/-- SecretStr unwrapping, the per-entry step of Base.as_dict. -/
def secretUnwrap : PValue → PValue
  | pSecret s => pStr s
  | v => v

/-- The per-entry value transformation of module-level to_redis_dict. -/
def encRedisVal : PValue → PValue
  | pBool b => pInt (if b then 1 else 0)
  | pList l => pJsonStr (pList l)
  | pDict d => pJsonStr (pDict d)
  | pDatetime t => pFloat t
  | pSecret s => pStr s
  | v => v

/-- The per-entry value transformation of dict_to_redis_dict. -/
def dictRedisVal : PValue → PValue
  | pBool b => pInt (if b then 1 else 0)
  | pList l => pJsonStr (pList l)
  | pDict d => pJsonStr (pDict (to_redis_dict none d))
  | pDatetime t => pFloat t
  | pEntity flds => pJsonStr (pDict (to_redis_dict none (as_dict flds)))
  | v => v

/-- The per-field encoding of obj_to_redis_dict. -/
def objEncVal (fd : FieldD) (x : PValue) : PValue :=
  if fd.ftype.isBool then pInt (if pvTruthy x then 1 else 0)
  else if fd.ftype.isDatetime then pvTimestamp x
  else x

/-- Values left untouched by to_redis_dict. -/
def redisPrimitive : PValue → Bool
  | pInt _ => true
  | pFloat _ => true
  | pStr _ => true
  | pJsonStr _ => true
  | pNone => true
  | _ => false

/-- A runtime value of the declared pydantic shape: the type a field of this
kind actually holds, which for the list-or-mapping-defaulted fields of the
repository (such as numbers on the UserInfo cache entity) is a container
whatever the element scalar type says. -/
def wellTypedVal : FType → PValue → Bool
  | .tInt, pInt _ => true
  | .tStr, pStr _ => true
  | .tBool, pBool _ => true
  | .tDatetime, pDatetime _ => true
  | .tSecret, pSecret _ => true
  | .tJson, pList _ => true
  | .tJson, pDict _ => true
  | .tEntity _, pEntity _ => true
  | _, _ => false

/-- Well-typedness of one field value with respect to its declaration. -/
def wellTypedField (fd : FieldD) (v : PValue) : Bool :=
  if defaultInEmptyPair fd then
    (!fd.ftype.isBool && !fd.ftype.isDatetime && !fd.ftype.isEntity) &&
      (match v with
        | pList _ => true
        | pDict _ => true
        | _ => false)
  else wellTypedVal fd.ftype v

/-- Alignment of a record with a field list: same keys in declaration order,
no duplicate declared name, every value well-typed. -/
def wellTypedFlat : List FieldD → RDict → Bool
  | [], [] => true
  | fd :: fs, (k, v) :: rest =>
    (k == fd.name) && !(fs.any (fun fd2 => fd2.name == fd.name)) &&
      wellTypedField fd v && wellTypedFlat fs rest
  | _, _ => false

/-- Well-typedness for the dict_to_redis_dict tier, whose mapping values are
re-encoded before serialization and whose nested entities are serialized as
the text of their own encoded mapping: mapping fields must hold
redis-primitive entries, and nested entity values must align with the target
model. -/
def wellTypedFieldC (fd : FieldD) (v : PValue) : Bool :=
  match fd.ftype, v with
  | .tEntity target, pEntity flds =>
    wellTypedFlat target.fields flds && !defaultIsEmptyList fd
  | ft, pDict dd =>
    (ft.isJson || defaultIsEmptyList fd) && !ft.isBool && !ft.isDatetime &&
      !ft.isEntity && dd.all (fun kv => redisPrimitive kv.2)
  | ft, pList _ =>
    (ft.isJson || defaultIsEmptyList fd) && !ft.isBool && !ft.isDatetime &&
      !ft.isEntity
  | _, _ => wellTypedField fd v

/- The key-value cache store, per the abstract collaborator contract: a hash
of string keys to flat field mappings. -/

abbrev Store := List (String × RDict)

def storeLookup (k : String) : Store → Option RDict
  | [] => none
  | (k₂, e) :: rest => if k₂ = k then some e else storeLookup k rest

/-- connection.exists(key). -/
def storeExists (k : String) (s : Store) : Bool := (storeLookup k s).isSome

/-- connection.delete(key). -/
def storeDelete (k : String) (s : Store) : Store := s.filter (fun kv => kv.1 ≠ k)

/-- connection.hmset_dict(key, mapping): set the given hash fields under the
key, creating the key when absent and keeping unmentioned fields. -/
def hmsetDict (k : String) (d : RDict) (s : Store) : Store :=
  match storeLookup k s with
  | some _ => s.map (fun kv =>
      if kv.1 = k then (kv.1, d.foldl (fun e f => dictAssign f.1 f.2 e) kv.2) else kv)
  | none => s ++ [(k, d)]

/-- Python str(value) as interpolated into an f-string cache key. SecretStr
renders masked; values that never occur as cache-field values render as the
empty string. -/
def pvStrOf : PValue → String
  | pStr s => s
  | pInt n => toString n
  | pFloat n => toString n
  | pBool b => if b then "True" else "False"
  | pNone => "None"
  | pSecret _ => "**********"
  | pDatetime t => toString t
  | _ => ""

/-- The error taxonomy raised by the embedded code paths. -/
inductive OrmError where
  | cacheDuplicate (key : String)
  | assertionFailed
  | keyError
  | typeError

/-- QuerySet.cache_key on a string argument: table_name : value. -/
def cache_key_str (m : ModelSchema) (s : String) : String :=
  m.tableName ++ ":" ++ s

/-- QuerySet.cache_key on a model instance: table_name : cache-field value;
none models the AssertionError when Config declares no cache_field. -/
def cache_key_obj (m : ModelSchema) (obj : RDict) : Option String :=
  m.cacheField.map (fun cf => m.tableName ++ ":" ++ pvStrOf (getattrD obj cf))

/-- CacheQuerySet.cache_key on a string: cache_key : value. -/
def cache_tier_key_str (m : ModelSchema) (s : String) : String :=
  m.cacheKeyName ++ ":" ++ s

/-- CacheQuerySet.cache_key on a dict: the source reads the literal key
email from the dict regardless of the declared cache_field; none models the
AssertionError when Config declares no cache_field. -/
def cache_tier_key_dict (m : ModelSchema) (d : RDict) : Option String :=
  m.cacheField.map (fun _ => m.cacheKeyName ++ ":" ++ pvStrOf (getattrD d "email"))

/- Default and on-update injection (Base.update_passed_values, line 225). -/

/-- Python passed_value == False: equality with False also holds for the
numeric zeros. -/
def pyEqFalse : PValue → Bool
  | pBool false => true
  | pInt 0 => true
  | pFloat 0 => true
  | _ => false

/-- any([value.get("default"), value.get("onupdate")]): the entry
participates when either supplier is declared (and the default is truthy). -/
def cfgActive (c : ColCfg) : Bool := dspecTruthy c.cfgDefault || c.onupdate

/-- get_default_values(o, passed_value), with the ambient clock standing for
datetime.now; the tzinfo strip is the identity on the naive datetimes of
this embedding. -/
def get_default_values (c : ColCfg) (clock : Int) (passed : Option PValue) : PValue :=
  let passedV := passed.getD pNone
  if c.onupdate then pDatetime clock
  else
    match c.cfgDefault with
    | some .dNow => pvOr passedV (pDatetime clock)
    | d =>
      if pyEqFalse passedV then passedV
      else
        match d with
        | some (.dConst v) => pvOr passedV v
        | _ => pvOr passedV pNone

/-- Base.update_passed_values: the dict of re-derived values for every
table_config entry declaring a default or on-update supplier. -/
def update_passed_values (m : ModelSchema) (clock : Int) (clean : RDict) : RDict :=
  m.tableConfig.filterMap (fun kc =>
    if cfgActive kc.2 then
      some (kc.1, get_default_values kc.2 clock (lookupF kc.1 clean))
    else none)

/-- Base.transform_kwargs: keys not naming a declared field are popped; when
they resolve as a persisted column name of some field, the referenced row is
fetched by identity (dbGet is the abstract point-lookup collaborator,
table name and identity value to instance-or-None) and stored under the
resolved field name. -/
def transform_kwargs (m : ModelSchema) (dbGet : String → PValue → PValue)
    (kwargs : RDict) : RDict :=
  let nmf := kwargs.filter (fun kv => (m.lookupField kv.1).isNone)
  nmf.foldl (fun acc kv =>
    let acc := dictRemove kv.1 acc
    match getClassFieldFromDbName m kv.1 with
    | some (newKey, _) =>
      match getRelatedFieldClass m newKey with
      | some target => dictAssign newKey (dbGet target.tableName kv.2) acc
      | none => acc
    | none => acc) kwargs

/-- QuerySet.update_kwargs_for_creation: transform, then merge in the
default/on-update values (right operand winning). -/
def update_kwargs_for_creation (m : ModelSchema) (dbGet : String → PValue → PValue)
    (clock : Int) (kwargs : RDict) : RDict :=
  let nk := transform_kwargs m dbGet kwargs
  mergeDict nk (update_passed_values m clock nk)

/-- QuerySet.quick_create (queryset.py line 484): build the instance with
default injection, encode it dropping the identity, and write it under the
computed cache key unless the key already exists, in which case
CacheDuplicateError is raised and the store is untouched. -/
def quick_create (m : ModelSchema) (dbGet : String → PValue → PValue) (clock : Int)
    (store : Store) (kwargs : RDict) : (Except OrmError String) × Store :=
  let nk := update_kwargs_for_creation m dbGet clock kwargs
  let inst := construct m.fields nk
  let asDict := dictRemove "id" (obj_to_redis_dict m.fields none inst)
  match cache_key_obj m inst with
  | none => (.error .assertionFailed, store)
  | some key =>
    if storeExists key store then (.error (.cacheDuplicate key), store)
    else (.ok key, hmsetDict key asDict store)

/-- QuerySet.in_write_cache: existence of the cache key; none models the
crash when no connection is supplied (connection.exists on None) or the key
cannot be computed. -/
def in_write_cache (m : ModelSchema) (obj : RDict) (conn : Option Unit)
    (store : Store) : Option Bool :=
  match cache_key_obj m obj with
  | none => none
  | some key =>
    match conn with
    | none => none
    | some _ => some (storeExists key store)

/-- QuerySet.remove_cache: with no connection, do nothing; otherwise delete
the key when it exists. none models the AssertionError from the key
computation. -/
def remove_cache (m : ModelSchema) (obj : RDict) (conn : Option Unit)
    (store : Store) : Option Store :=
  match conn with
  | none => some store
  | some _ =>
    match cache_key_obj m obj with
    | none => none
    | some key => some (if storeExists key store then storeDelete key store else store)

/- The relational store, per the abstract collaborator contract of the spec:
rows are flat column mappings; executing an insert returns the generated
identity, executing an update returns a falsy result. -/

structure DbState where
  rows : List RDict
  nextId : Int

/-- value["id"] on a related value: a materialized instance or its dict
form. Other shapes raise and are unreachable in the theorems. -/
def pvGetItem (v : PValue) (k : String) : PValue :=
  match v with
  | pEntity f => getattrD f k
  | pDict f => getattrD f k
  | _ => pNone

/-- The declared integer identity of a record; zero when unset, matching the
id field default of Base. -/
def recIdInt (r : RDict) : Int :=
  match lookupF "id" r with
  | some (pInt n) => n
  | _ => 0

def rowIdIs (i : Int) (row : RDict) : Bool :=
  match lookupF "id" row with
  | some (pInt n) => n == i
  | _ => false

def mergeRow (vals row : RDict) : RDict :=
  vals.foldl (fun r kv => dictAssign kv.1 kv.2 r) row

/-- database.execute of an insert statement: the store assigns the next
identity, appends the row, and returns the generated identity. -/
def executeInsert (vals : RDict) (db : DbState) : Int × DbState :=
  (db.nextId, ⟨db.rows ++ [dictAssign "id" (pInt db.nextId) vals], db.nextId + 1⟩)

/-- database.execute of an update statement keyed on the identity: sets the
values on the matching rows and returns a falsy result. -/
def executeUpdate (vals : RDict) (i : Int) (db : DbState) : Int × DbState :=
  (0, ⟨db.rows.map (fun row => if rowIdIs i row then mergeRow vals row else row),
    db.nextId⟩)

/-- Base.build_db_save_params: iterate self.dict(); relationship values are
flattened to their identity under the persisted column name and skipped
entirely when falsy; SecretStr values are unwrapped; the rest verbatim. The
is_related_field KeyError cannot fire on an instance of the model. -/
def build_db_save_params (m : ModelSchema) : RDict → RDict
  | [] => []
  | (k, v) :: rest =>
    let tail := build_db_save_params m rest
    if (isRelatedField m k).getD false then
      if pvTruthy v then ((getFieldDbName m k).getD k, pvGetItem v "id") :: tail
      else tail
    else
      match v with
      | pSecret s => (k, pStr s) :: tail
      | v => (k, v) :: tail

/-- Base.save_model (base.py line 256): build the statement (insert when the
identity argument is zero, popping the identity from the values; update
keyed on the identity otherwise), execute it, and concurrently remove the
write-cache entry of the instance rebuilt from the clean values whenever an
instance is available, which is the case exactly when the identity is
nonzero or a cache connection was passed. none models the AssertionError
propagating out of the cache-key computation. -/
def save_model (m : ModelSchema) (cleanValues : RDict) (idArg : Int)
    (conn : Option Unit) (db : DbState) (cache : Store) :
    Option (Int × DbState × Store) :=
  let obj0 : Option RDict :=
    if idArg != 0 then some (construct m.fields cleanValues) else none
  let cv := if idArg == 0 then dictRemove "id" cleanValues else cleanValues
  let res := if idArg == 0 then executeInsert cv db else executeUpdate cv idArg db
  let obj : Option RDict :=
    match conn, obj0 with
    | some _, none => some (construct m.fields cv)
    | _, _ => obj0
  match obj with
  | some o => (remove_cache m o conn cache).map (fun cache2 => (res.1, res.2, cache2))
  | none => some (res.1, res.2, cache)

/-- Base.save (base.py line 284), successful path: build the save params,
re-derive default/on-update values, run save_model on their merge, then
write the store-returned identity (when truthy) and the re-derived values
back onto the in-memory record. -/
def save (m : ModelSchema) (clock : Int) (r : RDict) (conn : Option Unit)
    (db : DbState) (cache : Store) : Option (RDict × DbState × Store) :=
  let clean := build_db_save_params m r
  let wdv := update_passed_values m clock clean
  (save_model m (mergeDict clean wdv) (recIdInt r) conn db cache).map
    (fun res =>
      let r2 := if res.1 != 0 then dictAssign "id" (pInt res.1) r else r
      let r3 := wdv.foldl (fun acc kv => dictAssign kv.1 kv.2 acc) r2
      (r3, res.2.1, res.2.2))

/-- QuerySet.create (queryset.py line 414): prepare the keyword values,
construct the instance, and save it; no cache connection is passed. -/
def create (m : ModelSchema) (dbGet : String → PValue → PValue) (clock : Int)
    (kwargs : RDict) (db : DbState) (cache : Store) :
    Option (RDict × DbState × Store) :=
  let nk := update_kwargs_for_creation m dbGet clock kwargs
  let inst := construct m.fields nk
  save m clock inst none db cache

/- The read-cache tier (CacheQuerySet, queryset.py line 149). -/

/-- The externally observable cache and data-source operations performed by
one read-cache lookup. -/
inductive CacheEffect where
  | effHGetAll (k : String)
  | effGetData (k : String)
  | effHMSet (k : String)

/-- CacheQuerySet.save_to_cache: encode the assembled data and write it
under the key computed from the data itself. -/
def save_to_cache (m : ModelSchema) (result : RDict) (store : Store) :
    Option (String × Store) :=
  (cache_tier_key_dict m result).map
    (fun key => (key, hmsetDict key (dict_to_redis_dict none result) store))

/-- CacheQuerySet.get (queryset.py line 170): with no connection the body is
skipped entirely and None is returned; otherwise a cache hit decodes the
stored mapping, and a miss invokes the abstract data-assembly function,
populates the cache, and marks the instance as database-origin. The third
component records the effects performed against the collaborators. -/
def cache_queryset_get (m : ModelSchema) (getData : String → RDict)
    (conn : Option Unit) (key : String) (store : Store) :
    Option (Option RDict × Store × List CacheEffect) :=
  match conn with
  | none => some (none, store, [])
  | some _ =>
    let ck := cache_tier_key_str m key
    let r0 := (storeLookup ck store).getD []
    if r0.isEmpty then
      let data := getData key
      match save_to_cache m data store with
      | none => none
      | some (sk, store2) =>
        let result := dictAssign "from_db" (pBool true) data
        some (some (redis_dict_to_obj m.fields result), store2,
          [CacheEffect.effHGetAll ck, CacheEffect.effGetData key,
            CacheEffect.effHMSet sk])
    else
      let result := dictAssign "from_db" (pBool false) r0
      some (some (redis_dict_to_obj m.fields result), store,
        [CacheEffect.effHGetAll ck])

/- Bulk writes (QuerySet.bulk_create_or_insert, queryset.py line 207). -/

/-- The two inputs accepted by the bulk path: model instances (is_model) and
raw field dicts. -/
inductive DbInput where
  | model (r : RDict)
  | raw (d : RDict)

/-- Base.build_db_dict: every declared field contributes its persisted
column; relationship values contribute their identity or None; for raw dict
inputs the keys naming no declared field are appended verbatim. -/
def build_db_dict (m : ModelSchema) (inst : DbInput) : RDict :=
  let core := m.fields.map (fun fd =>
    let value :=
      match inst with
      | .model r => getattrD r fd.name
      | .raw d => (lookupF fd.name d).getD pNone
    let name := (getFieldDbName m fd.name).getD fd.name
    if fd.ftype.isEntity then
      (name, if pvTruthy value then pvGetItem value "id" else pNone)
    else (name, value))
  match inst with
  | .model _ => core
  | .raw d => core ++ d.filter (fun kv => (m.lookupField kv.1).isNone)

/-- Python membership i.get("id") in [0, None]: the numeric zeros and None;
a missing key reads as None. -/
def idInZeroNone : Option PValue → Bool
  | none => true
  | some pNone => true
  | some (pInt 0) => true
  | some (pFloat 0) => true
  | some (pBool false) => true
  | _ => false

inductive WritePlan where
  | insertPlan
  | updatePlan
  deriving DecidableEq

/-- The compiled multi-row write: the chosen statement, the row values after
the identity drop, executed within one transaction. -/
structure BulkWrite where
  plan : WritePlan
  rows : List RDict
  inTransaction : Bool

/-- QuerySet.bulk_create_or_insert: asserts a non-empty list, chooses update
exactly when force_create is unset and the first row carries a truthy
identity, pops zero/absent identities from every row, and runs the
execute_many inside one transaction. -/
def bulk_create_or_insert (m : ModelSchema) (records : List DbInput)
    (forceCreate : Bool) : Except OrmError BulkWrite :=
  match records with
  | [] => .error .assertionFailed
  | r :: rs =>
    let values := (r :: rs).map (build_db_dict m)
    let v0 := build_db_dict m r
    let plan : WritePlan :=
      if !forceCreate && pvTruthy ((lookupF "id" v0).getD pNone) then .updatePlan
      else .insertPlan
    let rows := values.map (fun i =>
      if idInZeroNone (lookupF "id" i) then dictRemove "id" i else i)
    .ok ⟨plan, rows, true⟩

/- Deletion (Base.delete, base.py line 206; QuerySet.delete, queryset.py
line 451). -/

/-- QuerySet.delete with the filter context id == i: the store removes the
matching rows and reports the affected row count, per the external
executeWrite contract. -/
def queryset_delete_by_id (rows : List RDict) (i : Int) : Int × List RDict :=
  ((rows.filter (rowIdIs i)).length, rows.filter (fun row => !rowIdIs i row))

/-- Base.delete: runs the queryset delete filtered on the in-memory
identity and returns None, leaving the record untouched. -/
def base_delete (r : RDict) (rows : List RDict) : Option Int × List RDict :=
  (none, (queryset_delete_by_id rows (recIdInt r)).2)

/-- QuerySet.as_dict (queryset.py line 368): materialize one fetched row.
Each column is resolved through get_class_field_from_db_name; relationship
columns trigger a point lookup of the related instance by identity through
the abstract collaborator dbGet; columns resolving to nothing contribute
nothing, the loop having no else branch for them. -/
def queryset_as_dict (m : ModelSchema) (dbGet : String → PValue → PValue) :
    RDict → RDict
  | [] => []
  | (k, v) :: rest =>
    let tail := queryset_as_dict m dbGet rest
    match getClassFieldFromDbName m k with
    | some (fname, ftype) =>
      match ftype with
      | .tEntity target => (fname, dbGet target.tableName v) :: tail
      | _ => (fname, v) :: tail
    | none => tail

/-- QuerySet.as_klass: the row materialized into a typed instance. -/
def queryset_as_klass (m : ModelSchema) (dbGet : String → PValue → PValue)
    (row : RDict) : RDict :=
  construct m.fields (queryset_as_dict m dbGet row)

/- Record equality (Base.__eq__, base.py line 332). -/

/-- Python == on the identity values: numeric cross-type equality as Python
defines it; differing shapes compare unequal. -/
def pvPyEq (a b : PValue) : Bool :=
  match a, b with
  | pInt x, pInt y => x == y
  | pInt x, pFloat y => x == y
  | pFloat x, pInt y => x == y
  | pFloat x, pFloat y => x == y
  | pBool x, pInt y => (if x then (1 : Int) else 0) == y
  | pInt x, pBool y => x == (if y then (1 : Int) else 0)
  | pBool x, pBool y => x == y
  | pStr x, pStr y => x == y
  | pNone, pNone => true
  | _, _ => false

/-- Base.__eq__: self.id == value.id, nothing else. -/
def base_eq (a b : RDict) : Bool := pvPyEq (getattrD a "id") (getattrD b "id")

/- The filter predicate compiler (QuerySet.filter, queryset.py line 257, and
QuerySet.build_select_expression, line 229). -/

def FILTER_OPERATORS : List (String × String) :=
  [("exact", "__eq__"), ("iexact", "ilike"), ("contains", "like"),
    ("icontains", "ilike"), ("in", "in_"), ("gt", "__gt__"), ("gte", "__ge__"),
    ("lt", "__lt__"), ("lte", "__le__")]

def JSON_OPERATORS : List (String × String) :=
  [("contained_by", "contained_by"), ("contains", "contains"),
    ("icontains", "contains"), ("has_all", "has_all"), ("has_any", "has_any"),
    ("has_key", "has_key")]

def opLookup (k : String) : List (String × String) → Option String
  | [] => none
  | (k₂, v) :: rest => if k₂ = k then some v else opLookup k rest

/-- The compiled predicate clauses, kept symbolic: the sqlalchemy column
expression operator applied to the literal, a json containment operator, the
astext ilike pattern on a json sub-key, or astext equality. -/
inductive Clause where
  | opClause (table column opAttr : String) (value : PValue) (escapeMod : Bool)
  | jsonOpClause (table column jsonOp : String) (value : PValue)
  | jsonIlikeClause (table column subKey : String) (pat : String)
  | jsonEqClause (table column subKey : String) (value : PValue)

/-- The operator/field/related-path decomposition of one dunder filter key
(queryset.py lines 265 to 279): the trailing operator part when recognized,
with the json-column marker when the operand field of a path-free key is
declared json; the final catch-all arm is unreachable for a key the caller
established to contain the delimiter. -/
def parseFilterKey (root : ModelSchema) (key : String) :
    Except OrmError (String × String × List String × Option String) :=
  match (splitDunder key).reverse with
  | lastP :: sndLast :: restRev =>
    if (opLookup lastP FILTER_OPERATORS).isSome then
      if restRev.reverse.isEmpty then
        match isJsonField root sndLast with
        | none => .error .keyError
        | some true => .ok (lastP, sndLast, restRev.reverse, some sndLast)
        | some false => .ok (lastP, sndLast, restRev.reverse, none)
      else .ok (lastP, sndLast, restRev.reverse, none)
    else .ok ("exact", lastP, (sndLast :: restRev).reverse, none)
  | _ => .ok ("exact", key, [], none)

/-- The select_related accumulation of one filter key (queryset.py lines 282
to 289): a nonempty related path joins its parts, is appended when new and a
declared relationship, marks the json column when declared but not a
relationship, and raises when undeclared. -/
def srStep (root : ModelSchema) (sr relatedParts : List String)
    (jsonCol0 : Option String) : Except OrmError (List String × Option String) :=
  if relatedParts.isEmpty then .ok (sr, jsonCol0)
  else if joinDunder relatedParts ∈ sr then .ok (sr, jsonCol0)
  else
    match isRelatedField root (joinDunder relatedParts) with
    | none => .error .keyError
    | some true => .ok (sr ++ [joinDunder relatedParts], jsonCol0)
    | some false => .ok (sr, some (joinDunder relatedParts))

/-- One iteration of the filter loop over a key/value pair, carried over the
accumulated (filter_clauses, select_related) state. The untranslatable
branch replacing a model-class literal value by the string id is vacuous
here because a Python class object is not a representable literal. -/
def filterStep (root : ModelSchema) (st : List Clause × List String)
    (kv : String × PValue) : Except OrmError (List Clause × List String) :=
  if hasDunder kv.1 then
    match parseFilterKey root kv.1 with
    | .error e => .error e
    | .ok (op, fieldName, relatedParts, jsonCol0) =>
      match srStep root st.2 relatedParts jsonCol0 with
      | .error e => .error e
      | .ok (sr2, jsonCol1) =>
        match (relatedParts.foldlM (fun mc part =>
            match getRelatedFieldClass mc part with
            | none => .error OrmError.keyError
            | some m2 => .ok m2) root : Except OrmError ModelSchema) with
        | .error e => .error e
        | .ok modelCls =>
          match (match jsonCol1 with
            | some jc => resolveColumn root jc
            | none => resolveColumn modelCls fieldName) with
          | none => .error .keyError
          | some column =>
            match jsonCol1 with
            | some _ =>
              match opLookup op JSON_OPERATORS with
              | some jop =>
                match kv.2 with
                | pDict d =>
                  .ok (st.1 ++ [Clause.jsonOpClause column.1 column.2 jop (pDict d)], sr2)
                | pStr s =>
                  .ok (st.1 ++ [Clause.jsonIlikeClause column.1 column.2 fieldName
                    ("%" ++ (if hasEscapedCharacter s then escapeWildcards s else s) ++ "%")], sr2)
                | _ => .error .typeError
              | none =>
                .ok (st.1 ++ [Clause.jsonEqClause column.1 column.2 fieldName kv.2], sr2)
            | none =>
              if op = "contains" ∨ op = "icontains" then
                match kv.2 with
                | pStr s =>
                  .ok (st.1 ++ [Clause.opClause column.1 column.2
                    ((opLookup op FILTER_OPERATORS).getD "")
                    (pStr ("%" ++ (if hasEscapedCharacter s then escapeWildcards s else s) ++ "%"))
                    (hasEscapedCharacter s)], sr2)
                | _ => .error .typeError
              else .ok (st.1 ++ [Clause.opClause column.1 column.2
                ((opLookup op FILTER_OPERATORS).getD "") kv.2 false], sr2)
  else
    match resolveColumn root kv.1 with
    | none => .error .keyError
    | some column =>
      .ok (st.1 ++ [Clause.opClause column.1 column.2 "__eq__" kv.2 false], st.2)

def filterGo (root : ModelSchema) :
    List (String × PValue) → (List Clause × List String) →
    Except OrmError (List Clause × List String)
  | [], st => .ok st
  | kv :: rest, st =>
    match filterStep root st kv with
    | .error e => .error e
    | .ok st2 => filterGo root rest st2

/-- QuerySet.filter: compile every keyword into a clause, accumulating the
ordered set of implied relationship paths. -/
def filterCompile (root : ModelSchema) (kwargs : List (String × PValue)) :
    Except OrmError (List Clause × List String) :=
  filterGo root kwargs ([], [])

inductive WhereClause where
  | single (c : Clause)
  | andAll (cs : List Clause)

/-- The composed select expression: the selected tables, the join chain the
expression selects from, the combined predicate, and the limit. -/
structure SelectExpr where
  tables : List String
  selectFrom : List String
  whereCl : Option WhereClause
  limitCount : Option Nat

/-- The inner loop of build_select_expression on one path: walk its segments
from the root, joining each resolved related table in order. -/
def walkJoinPath (root : ModelSchema) (item : String) :
    Option (ModelSchema × List String) :=
  (splitDunder item).foldlM (fun mcAcc part =>
    (getRelatedFieldClass mcAcc.1 part).map
      (fun m2 => (m2, mcAcc.2 ++ [m2.tableName]))) (root, ([] : List String))

/-- QuerySet.build_select_expression: one join walk per accumulated path (the
select_from chain is rebuilt from the root for each path, the last one
winning, exactly as in the source); clauses combine under a single and;
a falsy limit is dropped. -/
def build_select_expression (root : ModelSchema) (clauses : List Clause)
    (sr : List String) (lim : Option Nat) : Option SelectExpr :=
  (sr.foldlM (fun acc item =>
      (walkJoinPath root item).map
        (fun w => (acc.1 ++ w.2, root.tableName :: w.2)))
      ([root.tableName], [root.tableName])).map
    (fun acc =>
      let whereCl : Option WhereClause :=
        match clauses with
        | [] => none
        | [c] => some (.single c)
        | cs => some (.andAll cs)
      let lim2 : Option Nat :=
        match lim with
        | some n => if n == 0 then none else some n
        | none => none
      ⟨acc.1, acc.2, whereCl, lim2⟩)

/-- The relationship path implied by one filter key: the joined leading
segments, when they parse as a traversal path and resolve to a declared
relationship field of the root model. -/
def relPathOf (root : ModelSchema) (key : String) : Option String :=
  if hasDunder key then
    match parseFilterKey root key with
    | .ok (_, _, relatedParts, _) =>
      if relatedParts.isEmpty then none
      else if isRelatedField root (joinDunder relatedParts) = some true
      then some (joinDunder relatedParts) else none
    | .error _ => none
  else none

/-- The ordered-set insertion performed by the select_related accumulation. -/
def insNew (sr : List String) : Option String → List String
  | none => sr
  | some p => if p ∈ sr then sr else sr ++ [p]

/- Concrete model metadata, from the models the repository tests declare
(src/tests/models.py), used by the witnesses below. -/

/-- The User model: users table, cache field email, created with a callable
default and modified with an on-update supplier. -/
def userSchema : ModelSchema :=
  .mk "users" (some "email") ""
    [.mk "id" .tInt (some (pInt 0)),
      .mk "full_name" .tStr none,
      .mk "email" .tStr none,
      .mk "password" .tSecret (some (pStr "")),
      .mk "is_active" .tBool (some (pBool true)),
      .mk "created" .tDatetime (some pNone),
      .mk "modified" .tDatetime (some pNone)]
    [("id", ⟨none, none, false⟩),
      ("full_name", ⟨none, none, false⟩),
      ("email", ⟨none, none, false⟩),
      ("is_active", ⟨none, some (.dConst (pBool true)), false⟩),
      ("created", ⟨none, some .dNow, false⟩),
      ("modified", ⟨none, none, true⟩)]

/-- The Profile model: a json addresses column and a user foreign key
persisted as user_id. -/
def profileSchema : ModelSchema :=
  .mk "profiles" none ""
    [.mk "id" .tInt (some (pInt 0)),
      .mk "addresses" .tJson (some (pList [])),
      .mk "user" (.tEntity userSchema) (some pNone)]
    [("id", ⟨none, none, false⟩),
      ("user", ⟨some "user_id", none, false⟩),
      ("addresses", ⟨none, none, false⟩)]

/-- The PhoneNumber model: a number column and a user foreign key persisted
as user_id. -/
def phoneSchema : ModelSchema :=
  .mk "phone_numbers" none ""
    [.mk "id" .tInt (some (pInt 0)),
      .mk "number" .tStr none,
      .mk "user" (.tEntity userSchema) (some pNone)]
    [("id", ⟨none, none, false⟩),
      ("number", ⟨none, none, false⟩),
      ("user", ⟨some "user_id", none, false⟩)]

/-- The UserInfo derived cache entity: cache key user_info, cache field
email; numbers is a string-typed field whose empty-list default drives the
json decode branch of to_python_dict. -/
def userInfoSchema : ModelSchema :=
  .mk "" (some "email") "user_info"
    [.mk "from_db" .tBool (some (pBool true)),
      .mk "full_name" .tStr none,
      .mk "email" .tStr none,
      .mk "is_active" .tBool (some (pBool true)),
      .mk "addresses" .tJson (some (pList [])),
      .mk "numbers" .tStr (some (pList []))]
    []

/-- Two filter keywords traversing the same user relationship of the
profile model. -/
def demoFilterKwargs : List (String × PValue) :=
  [("user__email", pStr "j@o.com"), ("user__full_name", pStr "Abiola")]

/-- The compiled clauses and select_related accumulation of
demoFilterKwargs on the profile model. -/
def demoFilterRes : List Clause × List String :=
  ([Clause.opClause "users" "email" "__eq__" (pStr "j@o.com") false,
    Clause.opClause "users" "full_name" "__eq__" (pStr "Abiola") false],
   ["user"])

/-- The select expression built from demoFilterRes: a single join of the
users table despite the two predicates on the path. -/
def demoSelectExpr : SelectExpr :=
  ⟨["profiles", "users"], ["profiles", "users"],
   some (.andAll [Clause.opClause "users" "email" "__eq__" (pStr "j@o.com") false,
     Clause.opClause "users" "full_name" "__eq__" (pStr "Abiola") false]),
   none⟩

/- General lemmas about the embedded operations. -/

theorem lookupF_map_pair (g : String → PValue → PValue) (l : RDict) (f : String) :
    lookupF f (l.map (fun kv => (kv.1, g kv.1 kv.2))) = (lookupF f l).map (g f) := by
  induction l with
  | nil => rfl
  | cons kv rest ih =>
    by_cases h : kv.1 = f
    · simp [lookupF, h]
    · simp [lookupF, h, ih]

theorem lookupF_fields_map (g : FieldD → PValue) (fields : List FieldD) (f : String) :
    lookupF f (fields.map (fun fd => (fd.name, g fd))) =
      (fields.find? (fun fd => fd.name = f)).map g := by
  induction fields with
  | nil => rfl
  | cons fd rest ih =>
    by_cases h : fd.name = f
    · simp [lookupF, List.find?, h]
    · simp [lookupF, List.find?, h, ih]

theorem lookupF_fields_filterMap_ne_id (g : FieldD → PValue) (fields : List FieldD)
    (f : String) (hf : f ≠ "id") :
    lookupF f (fields.filterMap (fun fd =>
        if fd.name = "id" then none else some (fd.name, g fd))) =
      (fields.find? (fun fd => fd.name = f)).map g := by
  have hidf : ¬ ("id" = f) := fun h => hf h.symm
  induction fields with
  | nil => rfl
  | cons fd rest ih =>
    by_cases hid : fd.name = "id"
    · have hne : ¬ fd.name = f := by
        intro h
        exact hf (h ▸ hid)
      simp [List.filterMap, List.find?, hid, hne, hidf, ih]
    · by_cases h : fd.name = f
      · simp [List.filterMap, List.find?, hid, h, lookupF, hf]
      · simp [List.filterMap, List.find?, hid, h, lookupF, hf, ih]

theorem storeExists_delete (k : String) (s : Store) :
    storeExists k (storeDelete k s) = false := by
  induction s with
  | nil => rfl
  | cons kv rest ih =>
    by_cases h : kv.1 = k
    · simpa [storeDelete, storeExists, storeLookup, h] using ih
    · simpa [storeDelete, storeExists, storeLookup, h] using ih

theorem storeLookup_hmset_fresh (k : String) (d : RDict) (s : Store)
    (h : storeLookup k s = none) :
    storeLookup k (hmsetDict k d s) = some d := by
  unfold hmsetDict
  rw [h]
  induction s with
  | nil => simp [storeLookup]
  | cons kv rest ih =>
    by_cases hk : kv.1 = k
    · rw [storeLookup, if_pos hk] at h
      exact absurd h (by simp)
    · rw [storeLookup, if_neg hk] at h
      simpa [storeLookup, hk] using ih h

theorem to_redis_dict_none_eq_map (d : RDict) :
    to_redis_dict none d = d.map (fun kv => (kv.1, encRedisVal kv.2)) := by
  induction d with
  | nil => rfl
  | cons kv rest ih =>
    obtain ⟨k, v⟩ := kv
    cases v <;> simp [to_redis_dict, encRedisVal, ih]

theorem dict_to_redis_dict_none_eq_map (d : RDict) :
    dict_to_redis_dict none d = d.map (fun kv => (kv.1, dictRedisVal kv.2)) := by
  induction d with
  | nil => rfl
  | cons kv rest ih =>
    obtain ⟨k, v⟩ := kv
    cases v <;> simp [dict_to_redis_dict, dictRedisVal, ih]

theorem obj_to_redis_dict_none_eq_map (fields : List FieldD) (obj : RDict) :
    obj_to_redis_dict fields none obj =
      fields.map (fun fd => (fd.name, objEncVal fd (getattrD obj fd.name))) := by
  induction fields with
  | nil => rfl
  | cons fd fs ih =>
    by_cases h1 : fd.ftype.isBool = true <;> by_cases h2 : fd.ftype.isDatetime = true <;>
      simp [obj_to_redis_dict, objEncVal, h1, h2, ih, List.foldr_cons] <;>
      simpa [obj_to_redis_dict] using ih

theorem as_dict_eq_map (d : RDict) :
    as_dict d = d.map (fun kv => (kv.1, secretUnwrap kv.2)) := by
  induction d with
  | nil => rfl
  | cons kv rest ih =>
    obtain ⟨k, v⟩ := kv
    cases v <;> simp [as_dict, secretUnwrap, ih]

theorem encRedisVal_secretUnwrap (v : PValue) :
    encRedisVal (secretUnwrap v) = encRedisVal v := by
  cases v <;> rfl

theorem encRedisVal_primitive (v : PValue) (h : redisPrimitive v = true) :
    encRedisVal v = v := by
  cases v <;> simp [redisPrimitive] at h <;> rfl

theorem to_redis_dict_primitive (dd : RDict)
    (h : dd.all (fun kv => redisPrimitive kv.2) = true) :
    to_redis_dict none dd = dd := by
  rw [to_redis_dict_none_eq_map]
  induction dd with
  | nil => rfl
  | cons kv rest ih =>
    obtain ⟨k, v⟩ := kv
    simp only [List.all_cons, Bool.and_eq_true] at h
    simp [encRedisVal_primitive v h.1, ih h.2]

theorem dIEL_imp_dIEP (fd : FieldD) :
    defaultIsEmptyList fd = true → defaultInEmptyPair fd = true := by
  obtain ⟨nm, ft, d⟩ := fd
  intro h
  simp only [defaultIsEmptyList, FieldD.fdefault] at h
  simp only [defaultInEmptyPair, FieldD.fdefault]
  split at h
  · rfl
  · simp at h

theorem int_ind_bool (b : Bool) : (((if b then (1 : Int) else 0)) != 0) = b := by
  cases b <;> rfl

theorem dIEL_false_of_not_dIEP (fd : FieldD) (hdp : ¬ defaultInEmptyPair fd = true) :
    defaultIsEmptyList fd = false := by
  cases hh : defaultIsEmptyList fd
  · rfl
  · exact absurd (dIEL_imp_dIEP _ hh) hdp

theorem roundA_field (fd : FieldD) (v : PValue) (h : wellTypedField fd v = true) :
    coerce fd.ftype (decVal fd (objEncVal fd v)) = v := by
  obtain ⟨nm, ft, dflt⟩ := fd
  by_cases hdp : defaultInEmptyPair ⟨nm, ft, dflt⟩ = true
  · cases ft <;> cases v <;>
      simp_all [wellTypedField, wellTypedVal, objEncVal, decVal, coerce,
        FType.isBool, FType.isDatetime, FType.isJson, FType.isEntity, isPyStr,
        marshal_to_class, jsonLoads, pvTimestamp, pvFloatOf, pvTruthy,
        int_ind_bool, FieldD.ftype]
  · have hdl : defaultIsEmptyList ⟨nm, ft, dflt⟩ = false :=
      dIEL_false_of_not_dIEP _ hdp
    cases ft <;> cases v <;>
      simp_all [wellTypedField, wellTypedVal, objEncVal, decVal, coerce,
        FType.isBool, FType.isDatetime, FType.isJson, FType.isEntity, isPyStr,
        marshal_to_class, jsonLoads, pvTimestamp, pvFloatOf, pvTruthy,
        int_ind_bool, FieldD.ftype]

theorem roundB_field (fd : FieldD) (v : PValue) (h : wellTypedField fd v = true) :
    coerce fd.ftype (pyVal fd (encRedisVal v)) = v := by
  obtain ⟨nm, ft, dflt⟩ := fd
  by_cases hdp : defaultInEmptyPair ⟨nm, ft, dflt⟩ = true
  · cases ft <;> cases v <;>
      simp_all [wellTypedField, wellTypedVal, encRedisVal, pyVal, coerce,
        FType.isBool, FType.isDatetime, FType.isJson, FType.isEntity, isPyStr,
        jsonLoads, pvTruthy, int_ind_bool, FieldD.ftype]
  · cases ft <;> cases v <;>
      simp_all [wellTypedField, wellTypedVal, encRedisVal, pyVal, coerce,
        FType.isBool, FType.isDatetime, FType.isJson, FType.isEntity, isPyStr,
        jsonLoads, pvTruthy, int_ind_bool, FieldD.ftype]

theorem as_dict_cons (k : String) (v : PValue) (rest : RDict) :
    as_dict ((k, v) :: rest) = (k, secretUnwrap v) :: as_dict rest := by
  cases v <;> rfl

theorem to_redis_cons (k : String) (v : PValue) (rest : RDict) :
    to_redis_dict none ((k, v) :: rest) =
      (k, encRedisVal v) :: to_redis_dict none rest := by
  cases v <;> rfl

theorem to_python_dict_cons (fd : FieldD) (fs : List FieldD) (L : RDict) :
    to_python_dict (fd :: fs) L =
      (fd.name, pyVal fd (getattrD L fd.name)) :: to_python_dict fs L := rfl

theorem construct_cons (fd : FieldD) (fs : List FieldD) (L : RDict) :
    construct (fd :: fs) L =
      (fd.name,
        match lookupF fd.name L with
        | some v => coerce fd.ftype v
        | none => fd.fdefault.getD pNone) :: construct fs L := rfl

theorem to_python_dict_skip_head (fs : List FieldD) (k : String) (x : PValue)
    (L : RDict) (hne : ∀ fd2 ∈ fs, fd2.name ≠ k) :
    to_python_dict fs ((k, x) :: L) = to_python_dict fs L := by
  unfold to_python_dict
  apply List.map_congr_left
  intro fd2 hm
  have : ¬ (k = fd2.name) := fun he => hne fd2 hm he.symm
  simp [getattrD, lookupF, this]

theorem construct_skip_head (fs : List FieldD) (k : String) (x : PValue)
    (L : RDict) (hne : ∀ fd2 ∈ fs, fd2.name ≠ k) :
    construct fs ((k, x) :: L) = construct fs L := by
  unfold construct
  apply List.map_congr_left
  intro fd2 hm
  have : ¬ (k = fd2.name) := fun he => hne fd2 hm he.symm
  simp [lookupF, this]

/-- The nested round trip used for entity fields of the dict_to_redis_dict
tier: a well-typed aligned record passed through as_dict, the redis
encoding, the python decoding and the class constructor comes back
unchanged (secret unwrapping is undone by the constructor coercion). -/
theorem roundC_nested (fields : List FieldD) (flds : RDict)
    (h : wellTypedFlat fields flds = true) :
    construct fields (to_python_dict fields (to_redis_dict none (as_dict flds))) =
      flds := by
  induction fields generalizing flds with
  | nil =>
    cases flds with
    | nil => rfl
    | cons kv rest => simp [wellTypedFlat] at h
  | cons fd fs ih =>
    cases flds with
    | nil => simp [wellTypedFlat] at h
    | cons kv rest =>
      obtain ⟨k, v⟩ := kv
      simp only [wellTypedFlat, Bool.and_eq_true, beq_iff_eq] at h
      obtain ⟨⟨⟨hk, hfresh⟩, hwt⟩, hrest⟩ := h
      subst hk
      have hfresh2 : ∀ fd2 ∈ fs, fd2.name ≠ fd.name := by
        intro fd2 hm he
        simp only [Bool.not_eq_true', List.any_eq_false, beq_iff_eq] at hfresh
        exact hfresh fd2 hm he
      rw [as_dict_cons, to_redis_cons, to_python_dict_cons, construct_cons]
      rw [to_python_dict_skip_head fs _ _ _ hfresh2]
      rw [construct_skip_head fs _ _ _ hfresh2]
      congr 1
      · have hhead : getattrD
            ((fd.name, encRedisVal (secretUnwrap v)) ::
              to_redis_dict none (as_dict rest)) fd.name =
            encRedisVal (secretUnwrap v) := by
          simp [getattrD, lookupF]
        rw [hhead]
        have hlook : lookupF fd.name
            ((fd.name, pyVal fd (encRedisVal (secretUnwrap v))) ::
              to_python_dict fs (to_redis_dict none (as_dict rest))) =
            some (pyVal fd (encRedisVal (secretUnwrap v))) := by
          simp [lookupF]
        rw [hlook]
        rw [encRedisVal_secretUnwrap]
        exact congrArg (fun x => (fd.name, x)) (roundB_field fd v hwt)
      · exact ih rest hrest

theorem roundC_field (fd : FieldD) (v : PValue) (h : wellTypedFieldC fd v = true) :
    coerce fd.ftype (decVal fd (dictRedisVal v)) = v := by
  obtain ⟨nm, ft, dflt⟩ := fd
  by_cases hdp : defaultInEmptyPair ⟨nm, ft, dflt⟩ = true <;>
    cases ft <;> cases v <;>
      simp_all [wellTypedFieldC, wellTypedField, wellTypedVal, decVal, dictRedisVal,
        coerce, FType.isBool, FType.isDatetime, FType.isJson, FType.isEntity, isPyStr,
        jsonLoads, marshal_to_class, pvTruthy, pvTimestamp, pvFloatOf, int_ind_bool,
        FieldD.ftype, roundC_nested, to_redis_dict_primitive, dIEL_false_of_not_dIEP]
  all_goals
    refine to_redis_dict_primitive _ ?_
    rw [List.all_eq_true]
    rintro ⟨a, b⟩ hm
    first
    | exact h a b hm
    | exact h.2 a b hm

/-- C4: the cache encoding round-trips. Part one: for every declared
non-identity field holding a well-typed value (booleans encoded 0/1,
datetimes as epoch seconds, json lists and mappings, secrets, nested
entities), decoding with redis_dict_to_obj the encoding produced by
obj_to_redis_dict restores the field. Part two: the same for the
to_redis_dict / to_python_dict pair composed with the class constructor,
where lists and mappings are carried as their canonical text serialization,
datetimes as epoch seconds and secrets as their unwrapped raw text. Part
three: the same for the dict_to_redis_dict encoder, under which a nested
entity travels as the text serialization of its own encoded field mapping
and mapping fields carry redis-primitive entries. -/
theorem cache_encoding_round_trip :
    (∀ (fields : List FieldD) (r : RDict) (f : String) (fd : FieldD) (v : PValue),
      fields.find? (fun x => x.name = f) = some fd → f ≠ "id" →
      lookupF f r = some v → wellTypedField fd v = true →
      lookupF f (redis_dict_to_obj fields (obj_to_redis_dict fields none r)) =
        some v) ∧
    (∀ (fields : List FieldD) (d : RDict) (f : String) (fd : FieldD) (v : PValue),
      fields.find? (fun x => x.name = f) = some fd →
      lookupF f d = some v → wellTypedField fd v = true →
      lookupF f (construct fields (to_python_dict fields (to_redis_dict none d))) =
        some v) ∧
    (∀ (fields : List FieldD) (r : RDict) (f : String) (fd : FieldD) (v : PValue),
      fields.find? (fun x => x.name = f) = some fd → f ≠ "id" →
      lookupF f r = some v → wellTypedFieldC fd v = true →
      lookupF f (redis_dict_to_obj fields (dict_to_redis_dict none r)) =
        some v) := by
  refine ⟨?_, ?_, ?_⟩
  · intro fields r f fd v hfind hfid hlook hwt
    have hname : fd.name = f := by simpa using List.find?_some hfind
    have hv : getattrD r fd.name = v := by
      unfold getattrD
      rw [hname, hlook]
      rfl
    have hENC : getattrD (obj_to_redis_dict fields none r) fd.name =
        objEncVal fd v := by
      unfold getattrD
      rw [obj_to_redis_dict_none_eq_map, hname, lookupF_fields_map, hfind]
      simp only [Option.map_some', Option.getD_some]
      rw [hv]
    simp only [redis_dict_to_obj, construct]
    rw [lookupF_fields_map, hfind]
    simp only [Option.map_some']
    rw [hname, lookupF_fields_filterMap_ne_id _ fields f hfid, hfind]
    simp [hENC, roundA_field fd v hwt]
  · intro fields d f fd v hfind hlook hwt
    have hname : fd.name = f := by simpa using List.find?_some hfind
    have hENC : getattrD (to_redis_dict none d) fd.name = encRedisVal v := by
      unfold getattrD
      rw [to_redis_dict_none_eq_map, hname, lookupF_map_pair (fun _ w => encRedisVal w) d f,
        hlook]
      rfl
    have hPY : lookupF f (to_python_dict fields (to_redis_dict none d)) =
        some (pyVal fd (encRedisVal v)) := by
      unfold to_python_dict
      rw [lookupF_fields_map, hfind]
      simp [hENC]
    simp only [construct]
    rw [lookupF_fields_map, hfind]
    simp only [Option.map_some']
    rw [hname, hPY]
    simp [roundB_field fd v hwt]
  · intro fields r f fd v hfind hfid hlook hwt
    have hname : fd.name = f := by simpa using List.find?_some hfind
    have hENC : getattrD (dict_to_redis_dict none r) fd.name = dictRedisVal v := by
      unfold getattrD
      rw [dict_to_redis_dict_none_eq_map, hname,
        lookupF_map_pair (fun _ w => dictRedisVal w) r f, hlook]
      rfl
    simp only [redis_dict_to_obj, construct]
    rw [lookupF_fields_map, hfind]
    simp only [Option.map_some']
    rw [hname, lookupF_fields_filterMap_ne_id _ fields f hfid, hfind]
    simp [hENC, roundC_field fd v hwt]

/-- C4 witness: a json list field of the UserInfo cache entity survives the
obj_to_redis_dict / redis_dict_to_obj round trip; a datetime field of a User
record survives the to_redis_dict / to_python_dict / constructor round trip;
and a nested User entity value of a Profile record survives the
dict_to_redis_dict / redis_dict_to_obj round trip. -/
theorem cache_encoding_round_trip_witness :
    lookupF "addresses" (redis_dict_to_obj userInfoSchema.fields
      (obj_to_redis_dict userInfoSchema.fields none
        [("from_db", pBool true), ("full_name", pStr "A"),
          ("email", pStr "j@o.com"), ("is_active", pBool true),
          ("addresses", pList [pDict [("state", pStr "Lagos")]]),
          ("numbers", pList [pStr "+234"])])) =
      some (pList [pDict [("state", pStr "Lagos")]]) ∧
    lookupF "created" (construct userSchema.fields
      (to_python_dict userSchema.fields (to_redis_dict none
        [("id", pInt 1), ("full_name", pStr "A"), ("email", pStr "e"),
          ("password", pSecret "pw"), ("is_active", pBool true),
          ("created", pDatetime 5), ("modified", pDatetime 6)]))) =
      some (pDatetime 5) ∧
    lookupF "user" (redis_dict_to_obj profileSchema.fields
      (dict_to_redis_dict none
        [("id", pInt 0), ("addresses", pDict [("name", pStr "Eleja 2")]),
          ("user", pEntity
            [("id", pInt 1), ("full_name", pStr "A"), ("email", pStr "e"),
              ("password", pSecret "pw"), ("is_active", pBool true),
              ("created", pDatetime 5), ("modified", pDatetime 6)])])) =
      some (pEntity
        [("id", pInt 1), ("full_name", pStr "A"), ("email", pStr "e"),
          ("password", pSecret "pw"), ("is_active", pBool true),
          ("created", pDatetime 5), ("modified", pDatetime 6)]) := by
  refine ⟨cache_encoding_round_trip.1 userInfoSchema.fields _ "addresses" _ _
      rfl (by decide) rfl rfl,
    cache_encoding_round_trip.2.1 userSchema.fields _ "created" _ _ rfl rfl rfl,
    cache_encoding_round_trip.2.2 profileSchema.fields _ "user" _ _ rfl
      (by decide) rfl rfl⟩

/-- C10: Base.__eq__ compares only the identity fields: equality of two
records is exactly Python equality of their id values, independently of
every other field, so two records with the same id but different remaining
contents compare equal. -/
theorem base_eq_compares_only_id :
    (∀ a b : RDict, base_eq a b = pvPyEq (getattrD a "id") (getattrD b "id")) ∧
    (∀ (i j : Int) (ra rb : RDict),
      base_eq (("id", pInt i) :: ra) (("id", pInt j) :: rb) = (i == j)) := by
  refine ⟨fun a b => rfl, fun i j ra rb => ?_⟩
  simp [base_eq, getattrD, lookupF, pvPyEq]

/-- C9: CacheQuerySet.get invoked without a connection returns no instance,
leaves the cache store untouched, and performs no effect at all: no cache
read, no data-assembly call, no write; the missing connection is silently
absorbed rather than raised. -/
theorem cache_get_no_connection (m : ModelSchema) (getData : String → RDict)
    (key : String) (store : Store) :
    cache_queryset_get m getData none key store = some (none, store, []) := rfl

/-- C8 (amended): Base.delete issues the delete for exactly the rows
matching the in-memory identity, the underlying queryset delete reports the
affected row count, but the record-level delete() itself returns None and
does not touch the record. -/
theorem base_delete_spec (r : RDict) (rows : List RDict) :
    base_delete r rows =
      (none, rows.filter (fun row => !rowIdIs (recIdInt r) row)) ∧
    (queryset_delete_by_id rows (recIdInt r)).1 =
      (rows.filter (rowIdIs (recIdInt r))).length :=
  ⟨rfl, rfl⟩

/-- C8 counterexample: deleting a persisted record with identity 1 removes
its row, and the queryset-level delete reports one affected row, yet
Base.delete returns None rather than that count, contradicting the claim
that delete() on the record returns the number of affected rows. -/
theorem base_delete_returns_none_counterexample :
    (base_delete [("id", pInt 1), ("full_name", pStr "Abiola")]
        [[("id", pInt 1), ("full_name", pStr "Abiola")]]).1 = none ∧
    (queryset_delete_by_id [[("id", pInt 1), ("full_name", pStr "Abiola")]]
        (recIdInt [("id", pInt 1), ("full_name", pStr "Abiola")])).1 = 1 ∧
    (base_delete [("id", pInt 1), ("full_name", pStr "Abiola")]
        [[("id", pInt 1), ("full_name", pStr "Abiola")]]).1 ≠ some 1 ∧
    (base_delete [("id", pInt 1), ("full_name", pStr "Abiola")]
        [[("id", pInt 1), ("full_name", pStr "Abiola")]]).2 = [] := by
  exact ⟨rfl, by decide, by decide, rfl⟩

/-- C2: quick_create under a cache key that already exists fails with
CacheDuplicateError and performs no write, so the store and in particular
the contents under that key are unchanged; under a fresh key, the encoded
record (identity dropped) is written under the key and the key returned. -/
theorem quick_create_duplicate_guard
    (m : ModelSchema) (dbGet : String → PValue → PValue) (clock : Int)
    (store : Store) (kwargs : RDict) (key : String)
    (hkey : cache_key_obj m (construct m.fields
      (update_kwargs_for_creation m dbGet clock kwargs)) = some key) :
    (storeExists key store = true →
      quick_create m dbGet clock store kwargs =
        (.error (.cacheDuplicate key), store)) ∧
    (storeExists key store = false →
      (quick_create m dbGet clock store kwargs).1 = .ok key ∧
      storeLookup key (quick_create m dbGet clock store kwargs).2 =
        some (dictRemove "id" (obj_to_redis_dict m.fields none
          (construct m.fields (update_kwargs_for_creation m dbGet clock kwargs))))) := by
  refine ⟨fun h => ?_, fun h => ?_⟩
  · simp [quick_create, hkey, h]
  · have hn : storeLookup key store = none := by
      unfold storeExists at h
      cases hs : storeLookup key store with
      | none => rfl
      | some e => rw [hs] at h; simp at h
    constructor
    · simp [quick_create, hkey, h]
    · simp [quick_create, hkey, h, storeLookup_hmset_fresh _ _ _ hn]

/-- C2 witness: staging Abiola under users:j@o.com on an empty store
succeeds returning the key; immediately re-staging a record with the same
cache key fails with CacheDuplicateError and leaves the store unchanged. -/
theorem quick_create_duplicate_guard_witness :
    ((quick_create userSchema (fun _ _ => pNone) 0 []
        [("full_name", pStr "Abiola"), ("email", pStr "j@o.com")]).1 =
      .ok "users:j@o.com") ∧
    (quick_create userSchema (fun _ _ => pNone) 0
        (quick_create userSchema (fun _ _ => pNone) 0 []
          [("full_name", pStr "Abiola"), ("email", pStr "j@o.com")]).2
        [("full_name", pStr "Shola"), ("email", pStr "j@o.com")] =
      (.error (.cacheDuplicate "users:j@o.com"),
        (quick_create userSchema (fun _ _ => pNone) 0 []
          [("full_name", pStr "Abiola"), ("email", pStr "j@o.com")]).2)) := by
  constructor
  · exact ((quick_create_duplicate_guard userSchema (fun _ _ => pNone) 0 []
      [("full_name", pStr "Abiola"), ("email", pStr "j@o.com")]
      "users:j@o.com" rfl).2 rfl).1
  · exact (quick_create_duplicate_guard userSchema (fun _ _ => pNone) 0
      (quick_create userSchema (fun _ _ => pNone) 0 []
        [("full_name", pStr "Abiola"), ("email", pStr "j@o.com")]).2
      [("full_name", pStr "Shola"), ("email", pStr "j@o.com")]
      "users:j@o.com" rfl).1 rfl

/-- C5 (amended): bulk_create_or_insert fails its assert precondition on an
empty list; on a non-empty list it picks the update statement exactly when
force_create is unset and the first row carries a truthy identity (so in
particular when every record conveys a nonzero identity), drops zero/absent
identities from every row, and runs as one transaction. -/
theorem bulk_create_or_insert_spec (m : ModelSchema) (records : List DbInput)
    (force : Bool) :
    (records = [] →
      bulk_create_or_insert m records force = .error .assertionFailed) ∧
    (∀ r rs, records = r :: rs →
      ∃ bw, bulk_create_or_insert m records force = .ok bw ∧
        bw.inTransaction = true ∧
        (bw.plan = .updatePlan ↔
          (!force && pvTruthy ((lookupF "id" (build_db_dict m r)).getD pNone)) = true) ∧
        bw.rows = ((r :: rs).map (build_db_dict m)).map (fun i =>
          if idInZeroNone (lookupF "id" i) then dictRemove "id" i else i) ∧
        ((∀ v ∈ (r :: rs).map (build_db_dict m),
            pvTruthy ((lookupF "id" v).getD pNone) = true) → force = false →
          bw.plan = .updatePlan)) := by
  constructor
  · rintro rfl
    rfl
  · rintro r rs rfl
    refine ⟨_, rfl, rfl, ?_, rfl, ?_⟩
    · by_cases h : (!force && pvTruthy ((lookupF "id" (build_db_dict m r)).getD pNone)) = true
      · simp [bulk_create_or_insert, h]
      · simp only [Bool.not_eq_true] at h
        simp [bulk_create_or_insert, h]
    · intro hall hf
      have h0 : pvTruthy ((lookupF "id" (build_db_dict m r)).getD pNone) = true :=
        hall _ (List.mem_map_of_mem _ (List.mem_cons_self r rs))
      simp [bulk_create_or_insert, hf, h0]

/-- C5 witness: a singleton list whose record has identity zero compiles to
the insert plan with the identity dropped, in one transaction; an empty list
fails the precondition; a list where every identity is set compiles to the
update plan. -/
theorem bulk_create_or_insert_spec_witness :
    bulk_create_or_insert userSchema [] false = .error .assertionFailed ∧
    (∃ bw, bulk_create_or_insert userSchema
        [.raw [("id", pInt 0), ("full_name", pStr "A"), ("email", pStr "a@x.com")]]
        false = .ok bw ∧
      bw.inTransaction = true ∧
      (bw.plan = .updatePlan ↔
        (!false && pvTruthy ((lookupF "id" (build_db_dict userSchema
          (.raw [("id", pInt 0), ("full_name", pStr "A"), ("email", pStr "a@x.com")]))).getD pNone)) = true) ∧
      bw.rows = (([(.raw [("id", pInt 0), ("full_name", pStr "A"), ("email", pStr "a@x.com")])] :
            List DbInput).map (build_db_dict userSchema)).map (fun i =>
        if idInZeroNone (lookupF "id" i) then dictRemove "id" i else i) ∧
      ((∀ v ∈ ([(.raw [("id", pInt 0), ("full_name", pStr "A"), ("email", pStr "a@x.com")])] :
            List DbInput).map (build_db_dict userSchema),
          pvTruthy ((lookupF "id" v).getD pNone) = true) → false = false →
        bw.plan = .updatePlan)) := by
  constructor
  · exact (bulk_create_or_insert_spec userSchema [] false).1 rfl
  · exact (bulk_create_or_insert_spec userSchema
      [.raw [("id", pInt 0), ("full_name", pStr "A"), ("email", pStr "a@x.com")]]
      false).2 _ _ rfl

/-- C5 counterexample: with a first record of identity 1 and a second of
identity 0, not every record conveys a nonzero identity, yet the compiled
plan is the update plan, refuting the claim that the insert plan is executed
whenever not all identities are nonzero. -/
theorem bulk_first_record_decides_plan_counterexample :
    (bulk_create_or_insert userSchema
        [.raw [("id", pInt 1), ("full_name", pStr "A"), ("email", pStr "a@x.com")],
          .raw [("id", pInt 0), ("full_name", pStr "B"), ("email", pStr "b@x.com")]]
        false).toOption.map BulkWrite.plan = some .updatePlan ∧
    pvTruthy ((lookupF "id" (build_db_dict userSchema
        (.raw [("id", pInt 0), ("full_name", pStr "B"),
          ("email", pStr "b@x.com")]))).getD pNone) = false := ⟨rfl, rfl⟩

theorem queryset_as_dict_resolved_cons (m : ModelSchema)
    (dbGet : String → PValue → PValue) (kv : String × PValue) (rest : RDict)
    (fname : String) (ftype : FType)
    (hres : getClassFieldFromDbName m kv.1 = some (fname, ftype)) :
    ∃ x, queryset_as_dict m dbGet (kv :: rest) =
      (fname, x) :: queryset_as_dict m dbGet rest := by
  obtain ⟨k, v⟩ := kv
  cases ftype <;> simp [queryset_as_dict, hres]

/-- C7 (amended): when a fetched row is materialized, every key of the
result comes from a row column that resolves through
get_class_field_from_db_name; a column resolving to no declared field and no
relationship column contributes nothing — unknown columns are dropped, not
preserved. -/
theorem queryset_as_dict_drops_unknown (m : ModelSchema)
    (dbGet : String → PValue → PValue) (row : RDict) :
    ∀ c ∈ (queryset_as_dict m dbGet row).map Prod.fst,
      ∃ kv ∈ row, ∃ ft, getClassFieldFromDbName m kv.1 = some (c, ft) := by
  induction row with
  | nil => simp [queryset_as_dict]
  | cons kv rest ih =>
    intro c hc
    cases hres : getClassFieldFromDbName m kv.1 with
    | none =>
      obtain ⟨k, v⟩ := kv
      simp only [queryset_as_dict, hres] at hc
      obtain ⟨kv2, h1, h2⟩ := ih c hc
      exact ⟨kv2, List.mem_cons_of_mem _ h1, h2⟩
    | some p =>
      obtain ⟨fname, ftype⟩ := p
      obtain ⟨x, hx⟩ := queryset_as_dict_resolved_cons m dbGet kv rest fname ftype hres
      rw [hx] at hc
      simp only [List.map_cons, List.mem_cons] at hc
      cases hc with
      | inl h =>
        exact ⟨kv, List.mem_cons_self kv rest, ftype, h ▸ hres⟩
      | inr h =>
        obtain ⟨kv2, h1, h2⟩ := ih c h
        exact ⟨kv2, List.mem_cons_of_mem _ h1, h2⟩

/-- C7 witness: on a row of the users table carrying only resolvable
columns plus one resolvable lookup, every materialized key traces back to a
resolvable column. -/
theorem queryset_as_dict_drops_unknown_witness :
    ∃ kv ∈ [(("full_name" : String), pStr "A"), ("mystery", pStr "extra")],
      ∃ ft, getClassFieldFromDbName userSchema kv.1 = some ("full_name", ft) :=
  queryset_as_dict_drops_unknown userSchema (fun _ _ => pNone)
    [("full_name", pStr "A"), ("mystery", pStr "extra")] "full_name" (by decide)

/-- C7 counterexample: a fetched users row carrying the unknown column
mystery materializes with that column absent from both the dict and the
typed record, while the row itself carried it, refuting verbatim
preservation of passthrough columns. -/
theorem unknown_columns_dropped_counterexample :
    lookupF "mystery" (queryset_as_dict userSchema (fun _ _ => pNone)
      [("id", pInt 1), ("full_name", pStr "A"), ("email", pStr "e@x.com"),
        ("mystery", pStr "extra")]) = none ∧
    lookupF "mystery" (queryset_as_klass userSchema (fun _ _ => pNone)
      [("id", pInt 1), ("full_name", pStr "A"), ("email", pStr "e@x.com"),
        ("mystery", pStr "extra")]) = none ∧
    getClassFieldFromDbName userSchema "mystery" = none ∧
    lookupF "mystery"
      [("id", pInt 1), ("full_name", pStr "A"), ("email", pStr "e@x.com"),
        ("mystery", pStr "extra")] = some (pStr "extra") := ⟨rfl, rfl, rfl, rfl⟩

theorem if_bne_of_ne {A : Sort _} {n : Int} (h : n ≠ 0) (x y : A) :
    (if n != 0 then x else y) = x := by
  simp [bne, beq_eq_false_iff_ne.mpr h]

theorem if_beq_zero_of_ne {A : Sort _} {n : Int} (h : n ≠ 0) (x y : A) :
    (if n == 0 then x else y) = y := by
  simp [beq_eq_false_iff_ne.mpr h]

/-- C6: a create call on the User entity (callable default datetime.now on
created, on-update datetime.now on modified) sets both created and modified
on the resulting record, the on-update supplier overriding the passed
modified value vm unconditionally; a subsequent save at a later clock
assigns modified the new on-update value and leaves created unchanged. -/
theorem create_applies_defaults_and_onupdate
    (dbGet : String → PValue → PValue) (a b : String) (vm : PValue)
    (t1 t2 : Int) (db : DbState) (cache : Store)
    (hne : t1 ≠ t2) (hpos : db.nextId ≠ 0) :
    ∃ r1 db1 cache1,
      create userSchema dbGet t1
        [("full_name", pStr a), ("email", pStr b), ("modified", vm)] db cache =
        some (r1, db1, cache1) ∧
      lookupF "created" r1 = some (pDatetime t1) ∧
      lookupF "modified" r1 = some (pDatetime t1) ∧
      ∃ r2 db2 cache2, save userSchema t2 r1 none db1 cache1 = some (r2, db2, cache2) ∧
        lookupF "modified" r2 = some (pDatetime t2) ∧
        lookupF "created" r2 = some (pDatetime t1) ∧
        pDatetime t2 ≠ pDatetime t1 := by
  have hinj : pDatetime t2 ≠ pDatetime t1 := by
    intro h
    injection h with h2
    exact hne h2.symm
  -- stage 1: keyword preparation and instance construction
  have h1 : update_kwargs_for_creation userSchema dbGet t1
      [("full_name", pStr a), ("email", pStr b), ("modified", vm)] =
      [("full_name", pStr a), ("email", pStr b), ("modified", pDatetime t1),
        ("is_active", pBool true), ("created", pDatetime t1)] := rfl
  have h2 : construct userSchema.fields
      [("full_name", pStr a), ("email", pStr b), ("modified", pDatetime t1),
        ("is_active", pBool true), ("created", pDatetime t1)] =
      [("id", pInt 0), ("full_name", pStr a), ("email", pStr b),
        ("password", pStr ""), ("is_active", pBool true),
        ("created", pDatetime t1), ("modified", pDatetime t1)] := rfl
  -- stage 2: the first save, on a record of identity zero
  have h3 : build_db_save_params userSchema
      [("id", pInt 0), ("full_name", pStr a), ("email", pStr b),
        ("password", pStr ""), ("is_active", pBool true),
        ("created", pDatetime t1), ("modified", pDatetime t1)] =
      [("id", pInt 0), ("full_name", pStr a), ("email", pStr b),
        ("password", pStr ""), ("is_active", pBool true),
        ("created", pDatetime t1), ("modified", pDatetime t1)] := rfl
  have h4 : update_passed_values userSchema t1
      [("id", pInt 0), ("full_name", pStr a), ("email", pStr b),
        ("password", pStr ""), ("is_active", pBool true),
        ("created", pDatetime t1), ("modified", pDatetime t1)] =
      [("is_active", pBool true), ("created", pDatetime t1),
        ("modified", pDatetime t1)] := rfl
  have h5 : mergeDict
      [("id", pInt 0), ("full_name", pStr a), ("email", pStr b),
        ("password", pStr ""), ("is_active", pBool true),
        ("created", pDatetime t1), ("modified", pDatetime t1)]
      [("is_active", pBool true), ("created", pDatetime t1),
        ("modified", pDatetime t1)] =
      [("id", pInt 0), ("full_name", pStr a), ("email", pStr b),
        ("password", pStr ""), ("is_active", pBool true),
        ("created", pDatetime t1), ("modified", pDatetime t1)] := rfl
  have h6 : recIdInt
      [("id", pInt 0), ("full_name", pStr a), ("email", pStr b),
        ("password", pStr ""), ("is_active", pBool true),
        ("created", pDatetime t1), ("modified", pDatetime t1)] = 0 := rfl
  have h7 : save_model userSchema
      [("id", pInt 0), ("full_name", pStr a), ("email", pStr b),
        ("password", pStr ""), ("is_active", pBool true),
        ("created", pDatetime t1), ("modified", pDatetime t1)] 0 none db cache =
      some (db.nextId,
        ⟨db.rows ++
          [[("full_name", pStr a), ("email", pStr b), ("password", pStr ""),
            ("is_active", pBool true), ("created", pDatetime t1),
            ("modified", pDatetime t1), ("id", pInt db.nextId)]],
          db.nextId + 1⟩, cache) := rfl
  have h8 : save userSchema t1
      [("id", pInt 0), ("full_name", pStr a), ("email", pStr b),
        ("password", pStr ""), ("is_active", pBool true),
        ("created", pDatetime t1), ("modified", pDatetime t1)] none db cache =
      some ([("id", pInt db.nextId), ("full_name", pStr a), ("email", pStr b),
          ("password", pStr ""), ("is_active", pBool true),
          ("created", pDatetime t1), ("modified", pDatetime t1)],
        ⟨db.rows ++
          [[("full_name", pStr a), ("email", pStr b), ("password", pStr ""),
            ("is_active", pBool true), ("created", pDatetime t1),
            ("modified", pDatetime t1), ("id", pInt db.nextId)]],
          db.nextId + 1⟩, cache) := by
    simp only [save]
    rw [h3, h4, h5, h6, h7, Option.map_some']
    rw [if_bne_of_ne hpos]
    rfl
  have hc : create userSchema dbGet t1
      [("full_name", pStr a), ("email", pStr b), ("modified", vm)] db cache =
      some ([("id", pInt db.nextId), ("full_name", pStr a), ("email", pStr b),
          ("password", pStr ""), ("is_active", pBool true),
          ("created", pDatetime t1), ("modified", pDatetime t1)],
        ⟨db.rows ++
          [[("full_name", pStr a), ("email", pStr b), ("password", pStr ""),
            ("is_active", pBool true), ("created", pDatetime t1),
            ("modified", pDatetime t1), ("id", pInt db.nextId)]],
          db.nextId + 1⟩, cache) := by
    simp only [create]
    rw [h1, h2, h8]
  refine ⟨_, _, _, hc, rfl, rfl, ?_⟩
  -- stage 3: the second save, on the persisted record, at clock t2
  have h9 : build_db_save_params userSchema
      [("id", pInt db.nextId), ("full_name", pStr a), ("email", pStr b),
        ("password", pStr ""), ("is_active", pBool true),
        ("created", pDatetime t1), ("modified", pDatetime t1)] =
      [("id", pInt db.nextId), ("full_name", pStr a), ("email", pStr b),
        ("password", pStr ""), ("is_active", pBool true),
        ("created", pDatetime t1), ("modified", pDatetime t1)] := rfl
  have h10 : update_passed_values userSchema t2
      [("id", pInt db.nextId), ("full_name", pStr a), ("email", pStr b),
        ("password", pStr ""), ("is_active", pBool true),
        ("created", pDatetime t1), ("modified", pDatetime t1)] =
      [("is_active", pBool true), ("created", pDatetime t1),
        ("modified", pDatetime t2)] := rfl
  have h11 : mergeDict
      [("id", pInt db.nextId), ("full_name", pStr a), ("email", pStr b),
        ("password", pStr ""), ("is_active", pBool true),
        ("created", pDatetime t1), ("modified", pDatetime t1)]
      [("is_active", pBool true), ("created", pDatetime t1),
        ("modified", pDatetime t2)] =
      [("id", pInt db.nextId), ("full_name", pStr a), ("email", pStr b),
        ("password", pStr ""), ("is_active", pBool true),
        ("created", pDatetime t1), ("modified", pDatetime t2)] := rfl
  have h12 : recIdInt
      [("id", pInt db.nextId), ("full_name", pStr a), ("email", pStr b),
        ("password", pStr ""), ("is_active", pBool true),
        ("created", pDatetime t1), ("modified", pDatetime t1)] = db.nextId := rfl
  have h13 : save_model userSchema
      [("id", pInt db.nextId), ("full_name", pStr a), ("email", pStr b),
        ("password", pStr ""), ("is_active", pBool true),
        ("created", pDatetime t1), ("modified", pDatetime t2)] db.nextId none
      ⟨db.rows ++
        [[("full_name", pStr a), ("email", pStr b), ("password", pStr ""),
          ("is_active", pBool true), ("created", pDatetime t1),
          ("modified", pDatetime t1), ("id", pInt db.nextId)]],
        db.nextId + 1⟩ cache =
      some (0,
        ⟨(db.rows ++
          [[("full_name", pStr a), ("email", pStr b), ("password", pStr ""),
            ("is_active", pBool true), ("created", pDatetime t1),
            ("modified", pDatetime t1), ("id", pInt db.nextId)]]).map
          (fun row => if rowIdIs db.nextId row then
            mergeRow
              [("id", pInt db.nextId), ("full_name", pStr a), ("email", pStr b),
                ("password", pStr ""), ("is_active", pBool true),
                ("created", pDatetime t1), ("modified", pDatetime t2)] row
            else row), db.nextId + 1⟩, cache) := by
    unfold save_model
    simp only [if_bne_of_ne hpos, if_beq_zero_of_ne hpos]
    rfl
  have hs : save userSchema t2
      [("id", pInt db.nextId), ("full_name", pStr a), ("email", pStr b),
        ("password", pStr ""), ("is_active", pBool true),
        ("created", pDatetime t1), ("modified", pDatetime t1)] none
      ⟨db.rows ++
        [[("full_name", pStr a), ("email", pStr b), ("password", pStr ""),
          ("is_active", pBool true), ("created", pDatetime t1),
          ("modified", pDatetime t1), ("id", pInt db.nextId)]],
        db.nextId + 1⟩ cache =
      some ([("id", pInt db.nextId), ("full_name", pStr a), ("email", pStr b),
          ("password", pStr ""), ("is_active", pBool true),
          ("created", pDatetime t1), ("modified", pDatetime t2)],
        ⟨(db.rows ++
          [[("full_name", pStr a), ("email", pStr b), ("password", pStr ""),
            ("is_active", pBool true), ("created", pDatetime t1),
            ("modified", pDatetime t1), ("id", pInt db.nextId)]]).map
          (fun row => if rowIdIs db.nextId row then
            mergeRow
              [("id", pInt db.nextId), ("full_name", pStr a), ("email", pStr b),
                ("password", pStr ""), ("is_active", pBool true),
                ("created", pDatetime t1), ("modified", pDatetime t2)] row
            else row), db.nextId + 1⟩, cache) := by
    simp only [save]
    rw [h9, h10, h11, h12, h13, Option.map_some']
    rfl
  exact ⟨_, _, _, hs, rfl, rfl, hinj⟩

/-- C6 witness: creating Abiola at clock 0 on a fresh store yields a record
with created and modified both set to clock 0 (the passed modified value
None overridden); saving it again at clock 1 moves modified to clock 1 and
leaves created at clock 0. -/
theorem create_applies_defaults_and_onupdate_witness :
    ∃ r1 db1 cache1,
      create userSchema (fun _ _ => pNone) 0
        [("full_name", pStr "Abiola"), ("email", pStr "j@o.com"),
          ("modified", pNone)] ⟨[], 1⟩ [] = some (r1, db1, cache1) ∧
      lookupF "created" r1 = some (pDatetime 0) ∧
      lookupF "modified" r1 = some (pDatetime 0) ∧
      ∃ r2 db2 cache2, save userSchema 1 r1 none db1 cache1 = some (r2, db2, cache2) ∧
        lookupF "modified" r2 = some (pDatetime 1) ∧
        lookupF "created" r2 = some (pDatetime 0) ∧
        pDatetime 1 ≠ pDatetime 0 :=
  create_applies_defaults_and_onupdate (fun _ _ => pNone) "Abiola" "j@o.com"
    pNone 0 1 ⟨[], 1⟩ [] (by decide) (by decide)

theorem in_write_cache_users (r : RDict) (s : Store) :
    in_write_cache userSchema r (some ()) s =
      some (storeExists ("users:" ++ pvStrOf (getattrD r "email")) s) := rfl

theorem storeExists_if_guard (k : String) (s : Store) :
    storeExists k (if storeExists k s then storeDelete k s else s) = false := by
  by_cases h : storeExists k s = true <;> simp [h, storeExists_delete]

/-- C1: a successful save of a User record with a cache connection removes
the write-cache entry under the record's cache key as part of the save, so
in_write_cache afterwards reports false, both for the record as passed and
for the mutated record the save hands back; this holds whether the save
inserts (identity zero, as for a record staged by quick_create) or updates,
and whether or not the entry was actually present. -/
theorem save_removes_write_cache_entry
    (i : Int) (fn e pw : String) (act : Bool) (c mo clock : Int)
    (db : DbState) (cache : Store) :
    ∃ r2 db2 cache2,
      save userSchema clock
        [("id", pInt i), ("full_name", pStr fn), ("email", pStr e),
          ("password", pSecret pw), ("is_active", pBool act),
          ("created", pDatetime c), ("modified", pDatetime mo)]
        (some ()) db cache = some (r2, db2, cache2) ∧
      in_write_cache userSchema
        [("id", pInt i), ("full_name", pStr fn), ("email", pStr e),
          ("password", pSecret pw), ("is_active", pBool act),
          ("created", pDatetime c), ("modified", pDatetime mo)]
        (some ()) cache2 = some false ∧
      in_write_cache userSchema r2 (some ()) cache2 = some false := by
  obtain ⟨rows, nid⟩ := db
  by_cases hi : i = 0
  · subst hi
    have hbd0 : build_db_save_params userSchema
        [("id", pInt 0), ("full_name", pStr fn), ("email", pStr e),
          ("password", pSecret pw), ("is_active", pBool act),
          ("created", pDatetime c), ("modified", pDatetime mo)] =
        [("id", pInt 0), ("full_name", pStr fn), ("email", pStr e),
          ("password", pStr pw), ("is_active", pBool act),
          ("created", pDatetime c), ("modified", pDatetime mo)] := rfl
    have hupv0 : update_passed_values userSchema clock
        [("id", pInt 0), ("full_name", pStr fn), ("email", pStr e),
          ("password", pStr pw), ("is_active", pBool act),
          ("created", pDatetime c), ("modified", pDatetime mo)] =
        [("is_active", get_default_values ⟨none, some (.dConst (pBool true)), false⟩
            clock (some (pBool act))),
          ("created", pDatetime c), ("modified", pDatetime clock)] := rfl
    have hmg0 : mergeDict
        [("id", pInt 0), ("full_name", pStr fn), ("email", pStr e),
          ("password", pStr pw), ("is_active", pBool act),
          ("created", pDatetime c), ("modified", pDatetime mo)]
        [("is_active", get_default_values ⟨none, some (.dConst (pBool true)), false⟩
            clock (some (pBool act))),
          ("created", pDatetime c), ("modified", pDatetime clock)] =
        [("id", pInt 0), ("full_name", pStr fn), ("email", pStr e),
          ("password", pStr pw),
          ("is_active", get_default_values ⟨none, some (.dConst (pBool true)), false⟩
            clock (some (pBool act))),
          ("created", pDatetime c), ("modified", pDatetime clock)] := rfl
    have hrid0 : recIdInt
        [("id", pInt 0), ("full_name", pStr fn), ("email", pStr e),
          ("password", pSecret pw), ("is_active", pBool act),
          ("created", pDatetime c), ("modified", pDatetime mo)] = 0 := rfl
    have hsm0 : save_model userSchema
        [("id", pInt 0), ("full_name", pStr fn), ("email", pStr e),
          ("password", pStr pw),
          ("is_active", get_default_values ⟨none, some (.dConst (pBool true)), false⟩
            clock (some (pBool act))),
          ("created", pDatetime c), ("modified", pDatetime clock)] 0
        (some ()) ⟨rows, nid⟩ cache =
        some (nid,
          ⟨rows ++ [[("full_name", pStr fn), ("email", pStr e),
            ("password", pStr pw),
            ("is_active", get_default_values ⟨none, some (.dConst (pBool true)), false⟩
              clock (some (pBool act))),
            ("created", pDatetime c), ("modified", pDatetime clock),
            ("id", pInt nid)]], nid + 1⟩,
          if storeExists ("users:" ++ e) cache then
            storeDelete ("users:" ++ e) cache else cache) := rfl
    by_cases hn : nid = 0
    · subst hn
      have hs : save userSchema clock
          [("id", pInt 0), ("full_name", pStr fn), ("email", pStr e),
          ("password", pSecret pw), ("is_active", pBool act),
          ("created", pDatetime c), ("modified", pDatetime mo)]
          (some ()) ⟨rows, 0⟩ cache =
          some ([("id", pInt 0), ("full_name", pStr fn), ("email", pStr e),
            ("password", pSecret pw),
            ("is_active", get_default_values
              ⟨none, some (.dConst (pBool true)), false⟩ clock (some (pBool act))),
            ("created", pDatetime c), ("modified", pDatetime clock)],
            ⟨rows ++ [[("full_name", pStr fn), ("email", pStr e),
            ("password", pStr pw),
            ("is_active", get_default_values ⟨none, some (.dConst (pBool true)), false⟩
              clock (some (pBool act))),
            ("created", pDatetime c), ("modified", pDatetime clock),
            ("id", pInt 0)]], 0 + 1⟩,
            if storeExists ("users:" ++ e) cache then
            storeDelete ("users:" ++ e) cache else cache) := by
        simp only [save]
        rw [hbd0, hupv0, hmg0, hrid0, hsm0, Option.map_some']
        rfl
      refine ⟨_, _, _, hs, ?_, ?_⟩
      · rw [in_write_cache_users]
        exact congrArg some (storeExists_if_guard ("users:" ++ e) cache)
      · rw [in_write_cache_users]
        exact congrArg some (storeExists_if_guard ("users:" ++ e) cache)
    · have hs : save userSchema clock
          [("id", pInt 0), ("full_name", pStr fn), ("email", pStr e),
          ("password", pSecret pw), ("is_active", pBool act),
          ("created", pDatetime c), ("modified", pDatetime mo)]
          (some ()) ⟨rows, nid⟩ cache =
          some ([("id", pInt nid), ("full_name", pStr fn), ("email", pStr e),
            ("password", pSecret pw),
            ("is_active", get_default_values
              ⟨none, some (.dConst (pBool true)), false⟩ clock (some (pBool act))),
            ("created", pDatetime c), ("modified", pDatetime clock)],
            ⟨rows ++ [[("full_name", pStr fn), ("email", pStr e),
            ("password", pStr pw),
            ("is_active", get_default_values ⟨none, some (.dConst (pBool true)), false⟩
              clock (some (pBool act))),
            ("created", pDatetime c), ("modified", pDatetime clock),
            ("id", pInt nid)]], nid + 1⟩,
            if storeExists ("users:" ++ e) cache then
            storeDelete ("users:" ++ e) cache else cache) := by
        simp only [save]
        rw [hbd0, hupv0, hmg0, hrid0, hsm0, Option.map_some']
        rw [if_bne_of_ne hn]
        rfl
      refine ⟨_, _, _, hs, ?_, ?_⟩
      · rw [in_write_cache_users]
        exact congrArg some (storeExists_if_guard ("users:" ++ e) cache)
      · rw [in_write_cache_users]
        exact congrArg some (storeExists_if_guard ("users:" ++ e) cache)
  · have hbd : build_db_save_params userSchema
        [("id", pInt i), ("full_name", pStr fn), ("email", pStr e),
          ("password", pSecret pw), ("is_active", pBool act),
          ("created", pDatetime c), ("modified", pDatetime mo)] =
        [("id", pInt i), ("full_name", pStr fn), ("email", pStr e),
          ("password", pStr pw), ("is_active", pBool act),
          ("created", pDatetime c), ("modified", pDatetime mo)] := rfl
    have hupv : update_passed_values userSchema clock
        [("id", pInt i), ("full_name", pStr fn), ("email", pStr e),
          ("password", pStr pw), ("is_active", pBool act),
          ("created", pDatetime c), ("modified", pDatetime mo)] =
        [("is_active", get_default_values ⟨none, some (.dConst (pBool true)), false⟩
            clock (some (pBool act))),
          ("created", pDatetime c), ("modified", pDatetime clock)] := rfl
    have hmg : mergeDict
        [("id", pInt i), ("full_name", pStr fn), ("email", pStr e),
          ("password", pStr pw), ("is_active", pBool act),
          ("created", pDatetime c), ("modified", pDatetime mo)]
        [("is_active", get_default_values ⟨none, some (.dConst (pBool true)), false⟩
            clock (some (pBool act))),
          ("created", pDatetime c), ("modified", pDatetime clock)] =
        [("id", pInt i), ("full_name", pStr fn), ("email", pStr e),
          ("password", pStr pw),
          ("is_active", get_default_values ⟨none, some (.dConst (pBool true)), false⟩
            clock (some (pBool act))),
          ("created", pDatetime c), ("modified", pDatetime clock)] := rfl
    have hrid : recIdInt
        [("id", pInt i), ("full_name", pStr fn), ("email", pStr e),
          ("password", pSecret pw), ("is_active", pBool act),
          ("created", pDatetime c), ("modified", pDatetime mo)] = i := rfl
    have hsm : save_model userSchema
        [("id", pInt i), ("full_name", pStr fn), ("email", pStr e),
          ("password", pStr pw),
          ("is_active", get_default_values ⟨none, some (.dConst (pBool true)), false⟩
            clock (some (pBool act))),
          ("created", pDatetime c), ("modified", pDatetime clock)] i
        (some ()) ⟨rows, nid⟩ cache =
        some (0,
          ⟨rows.map (fun row => if rowIdIs i row then
            mergeRow
              [("id", pInt i), ("full_name", pStr fn), ("email", pStr e),
                ("password", pStr pw),
                ("is_active", get_default_values
                  ⟨none, some (.dConst (pBool true)), false⟩ clock (some (pBool act))),
                ("created", pDatetime c), ("modified", pDatetime clock)] row
            else row), nid⟩,
          if storeExists ("users:" ++ e) cache then
            storeDelete ("users:" ++ e) cache else cache) := by
      unfold save_model
      simp only [if_bne_of_ne hi, if_beq_zero_of_ne hi]
      rfl
    have hs : save userSchema clock
        [("id", pInt i), ("full_name", pStr fn), ("email", pStr e),
          ("password", pSecret pw), ("is_active", pBool act),
          ("created", pDatetime c), ("modified", pDatetime mo)]
        (some ()) ⟨rows, nid⟩ cache =
        some ([("id", pInt i), ("full_name", pStr fn), ("email", pStr e),
            ("password", pSecret pw),
            ("is_active", get_default_values
              ⟨none, some (.dConst (pBool true)), false⟩ clock (some (pBool act))),
            ("created", pDatetime c), ("modified", pDatetime clock)],
          ⟨rows.map (fun row => if rowIdIs i row then
            mergeRow
              [("id", pInt i), ("full_name", pStr fn), ("email", pStr e),
                ("password", pStr pw),
                ("is_active", get_default_values
                  ⟨none, some (.dConst (pBool true)), false⟩ clock (some (pBool act))),
                ("created", pDatetime c), ("modified", pDatetime clock)] row
            else row), nid⟩,
          if storeExists ("users:" ++ e) cache then
            storeDelete ("users:" ++ e) cache else cache) := by
      simp only [save]
      rw [hbd, hupv, hmg, hrid, hsm, Option.map_some']
      rfl
    refine ⟨_, _, _, hs, ?_, ?_⟩
    · rw [in_write_cache_users]
      exact congrArg some (storeExists_if_guard ("users:" ++ e) cache)
    · rw [in_write_cache_users]
      exact congrArg some (storeExists_if_guard ("users:" ++ e) cache)

/- The join-path accumulation of the filter compiler (claim support: the
select_related list collects exactly the distinct relationship paths the
keywords imply, in first-reference order, and build_select_expression walks
each accumulated path once). -/

theorem srStep_sr (root : ModelSchema) (sr relatedParts : List String)
    (jsonCol0 : Option String) (out : List String × Option String)
    (h : srStep root sr relatedParts jsonCol0 = .ok out) :
    out.1 = insNew sr (if relatedParts.isEmpty then none
      else if isRelatedField root (joinDunder relatedParts) = some true
      then some (joinDunder relatedParts) else none) := by
  rw [srStep] at h
  by_cases he : relatedParts.isEmpty = true
  · rw [if_pos he] at h
    rw [if_pos he]
    injection h with h1
    subst h1
    rfl
  · rw [if_neg he] at h
    rw [if_neg he]
    by_cases hm : joinDunder relatedParts ∈ sr
    · rw [if_pos hm] at h
      injection h with h1
      subst h1
      by_cases hr : isRelatedField root (joinDunder relatedParts) = some true
      · rw [if_pos hr]
        show sr = insNew sr (some (joinDunder relatedParts))
        simp only [insNew, if_pos hm]
      · rw [if_neg hr]
        rfl
    · rw [if_neg hm] at h
      split at h
      next hr => exact Except.noConfusion h
      next hr =>
        injection h with h1
        subst h1
        rw [hr, if_pos rfl]
        show sr ++ [joinDunder relatedParts] = insNew sr (some (joinDunder relatedParts))
        simp only [insNew, if_neg hm]
      next hr =>
        injection h with h1
        subst h1
        rw [hr, if_neg (by decide)]
        rfl

theorem filterStep_sr (root : ModelSchema) (st : List Clause × List String)
    (kv : String × PValue) (st2 : List Clause × List String)
    (h : filterStep root st kv = .ok st2) :
    st2.2 = insNew st.2 (relPathOf root kv.1) := by
  by_cases hd : hasDunder kv.1 = true
  · rw [filterStep, if_pos hd] at h
    rw [relPathOf, if_pos hd]
    split at h
    next e hp => exact Except.noConfusion h
    next op fieldName relatedParts jsonCol0 hp =>
      split at h
      next e hs => exact Except.noConfusion h
      next sr2 jsonCol1 hs =>
        have h3 := srStep_sr root st.2 relatedParts jsonCol0 (sr2, jsonCol1) hs
        have h2 : st2.2 = sr2 := by
          repeat' split at h
          all_goals
            first
            | (injection h with h1; subst h1; rfl)
            | injection h
        rw [h2, hp]
        exact h3
  · rw [filterStep, if_neg hd] at h
    rw [relPathOf, if_neg hd]
    split at h
    next hc => exact Except.noConfusion h
    next column hc =>
      injection h with h1
      subst h1
      rfl

theorem filterGo_sr (root : ModelSchema) (kwargs : List (String × PValue)) :
    ∀ (st res : List Clause × List String), filterGo root kwargs st = .ok res →
    res.2 = kwargs.foldl (fun sr kv => insNew sr (relPathOf root kv.1)) st.2 := by
  induction kwargs with
  | nil =>
    intro st res h
    simp only [filterGo] at h
    injection h with h1
    subst h1
    rfl
  | cons kv rest ih =>
    intro st res h
    simp only [filterGo] at h
    cases hstep : filterStep root st kv with
    | error e => rw [hstep] at h; exact Except.noConfusion h
    | ok st2 =>
      rw [hstep] at h
      simp only [List.foldl_cons]
      rw [← filterStep_sr root st kv st2 hstep]
      exact ih st2 res h

theorem mem_insNew (sr : List String) (o : Option String) (q : String) :
    q ∈ insNew sr o ↔ q ∈ sr ∨ o = some q := by
  cases o with
  | none =>
    constructor
    · exact fun h => Or.inl h
    · rintro (h | h)
      · exact h
      · exact Option.noConfusion h
  | some p =>
    by_cases hp : p ∈ sr
    · simp only [insNew, if_pos hp]
      constructor
      · exact fun h => Or.inl h
      · rintro (h | h)
        · exact h
        · exact (Option.some.inj h) ▸ hp
    · simp only [insNew, if_neg hp]
      constructor
      · intro h
        rcases List.mem_append.mp h with h2 | h2
        · exact Or.inl h2
        · exact Or.inr (congrArg some (List.mem_singleton.mp h2).symm)
      · rintro (h | h)
        · exact List.mem_append.mpr (Or.inl h)
        · exact List.mem_append.mpr
            (Or.inr (List.mem_singleton.mpr (Option.some.inj h).symm))

theorem nodup_insNew (sr : List String) (o : Option String) (h : sr.Nodup) :
    (insNew sr o).Nodup := by
  cases o with
  | none => exact h
  | some p =>
    by_cases hp : p ∈ sr
    · simp only [insNew, if_pos hp]
      exact h
    · simp only [insNew, if_neg hp]
      exact h.append (List.nodup_singleton p)
        (fun a ha hb => hp ((List.mem_singleton.mp hb) ▸ ha))

theorem mem_foldl_insNew (os : List (Option String)) :
    ∀ (sr : List String) (q : String),
    q ∈ os.foldl insNew sr ↔ q ∈ sr ∨ some q ∈ os := by
  induction os with
  | nil =>
    intro sr q
    simp
  | cons o rest ih =>
    intro sr q
    rw [List.foldl_cons, ih, mem_insNew, List.mem_cons]
    constructor
    · rintro ((h | h) | h)
      · exact Or.inl h
      · exact Or.inr (Or.inl h.symm)
      · exact Or.inr (Or.inr h)
    · rintro (h | h | h)
      · exact Or.inl (Or.inl h)
      · exact Or.inl (Or.inr h.symm)
      · exact Or.inr h

theorem nodup_foldl_insNew (os : List (Option String)) :
    ∀ (sr : List String), sr.Nodup → (os.foldl insNew sr).Nodup := by
  induction os with
  | nil => exact fun sr h => h
  | cons o rest ih =>
    intro sr h
    rw [List.foldl_cons]
    exact ih (insNew sr o) (nodup_insNew sr o h)

theorem count_eq_one_of_nodup_mem {l : List String} {a : String}
    (hd : l.Nodup) (hm : a ∈ l) : List.count a l = 1 := by
  induction l with
  | nil => cases hm
  | cons b t ih =>
    rcases List.mem_cons.mp hm with h | h
    · subst h
      rw [List.count_cons_self]
      rw [List.count_eq_zero.mpr (List.nodup_cons.mp hd).1]
    · have hab : a ≠ b := fun he => (List.nodup_cons.mp hd).1 (he ▸ h)
      rw [List.count_cons_of_ne hab, ih (List.nodup_cons.mp hd).2 h]

theorem count_foldl_insNew (os : List (Option String)) (p : String) :
    List.count p (os.foldl insNew []) = if some p ∈ os then 1 else 0 := by
  by_cases hm : some p ∈ os
  · rw [if_pos hm]
    exact count_eq_one_of_nodup_mem (nodup_foldl_insNew os [] List.nodup_nil)
      ((mem_foldl_insNew os [] p).mpr (Or.inr hm))
  · rw [if_neg hm]
    rw [List.count_eq_zero]
    intro hmem
    rcases (mem_foldl_insNew os [] p).mp hmem with h | h
    · exact absurd h (List.not_mem_nil p)
    · exact hm h

theorem selectFold_tables (root : ModelSchema) :
    ∀ (sr : List String) (acc out : List String × List String),
    (sr.foldlM (fun acc item =>
        (walkJoinPath root item).map
          (fun w => (acc.1 ++ w.2, root.tableName :: w.2))) acc) = some out →
    out.1 = acc.1 ++ sr.flatMap
      (fun item => ((walkJoinPath root item).map Prod.snd).getD []) := by
  intro sr
  induction sr with
  | nil =>
    intro acc out h
    simp only [List.foldlM_nil, Option.pure_def] at h
    injection h with h1
    subst h1
    simp
  | cons i rest ih =>
    intro acc out h
    rw [List.foldlM_cons] at h
    cases hw : walkJoinPath root i with
    | none => rw [hw] at h; exact Option.noConfusion h
    | some w =>
      rw [hw] at h
      have h2 : rest.foldlM
          (fun acc item =>
            (walkJoinPath root item).map
              (fun w => (acc.1 ++ w.2, root.tableName :: w.2)))
          (acc.1 ++ w.2, root.tableName :: w.2) = some out := h
      rw [ih (acc.1 ++ w.2, root.tableName :: w.2) out h2]
      simp [List.flatMap_cons, hw, List.append_assoc]

/-- C3: for every filter keyword set QuerySet.filter compiles successfully,
each distinct relationship-traversal path referenced by the keywords occurs
exactly once in the accumulated select_related list, however many predicates
reference it, and the select expression built from the compiled result joins
exactly one table walk per accumulated path: its table list is the root
table followed by the walked related tables of each accumulated path in
order. -/
theorem filter_join_paths_idempotent
    (root : ModelSchema) (kwargs : List (String × PValue))
    (res : List Clause × List String) (lim : Option Nat) (expr : SelectExpr)
    (p : String)
    (hf : filterCompile root kwargs = .ok res)
    (hb : build_select_expression root res.1 res.2 lim = some expr) :
    List.count p res.2 =
      (if some p ∈ kwargs.map (fun kv => relPathOf root kv.1) then 1 else 0)
    ∧ expr.tables = root.tableName ::
        res.2.flatMap (fun item => ((walkJoinPath root item).map Prod.snd).getD []) := by
  have hsr : res.2 = (kwargs.map (fun kv => relPathOf root kv.1)).foldl insNew [] := by
    rw [List.foldl_map]
    exact filterGo_sr root kwargs ([], []) res hf
  constructor
  · rw [hsr]
    exact count_foldl_insNew (kwargs.map (fun kv => relPathOf root kv.1)) p
  · rw [build_select_expression.eq_def] at hb
    obtain ⟨acc2, hacc, hF⟩ := Option.map_eq_some'.mp hb
    have ht := selectFold_tables root res.2 ([root.tableName], [root.tableName]) acc2 hacc
    rw [← hF]
    show acc2.1 = root.tableName ::
      res.2.flatMap (fun item => ((walkJoinPath root item).map Prod.snd).getD [])
    rw [ht]
    rfl

theorem filter_join_paths_idempotent_witness :
    filterCompile profileSchema demoFilterKwargs = .ok demoFilterRes ∧
    build_select_expression profileSchema demoFilterRes.1 demoFilterRes.2 none =
      some demoSelectExpr ∧
    (List.count "user" demoFilterRes.2 =
      (if some "user" ∈ demoFilterKwargs.map
          (fun kv => relPathOf profileSchema kv.1) then 1 else 0)
     ∧ demoSelectExpr.tables = profileSchema.tableName ::
        demoFilterRes.2.flatMap
          (fun item => ((walkJoinPath profileSchema item).map Prod.snd).getD [])) :=
  ⟨rfl, rfl,
    filter_join_paths_idempotent profileSchema demoFilterKwargs demoFilterRes
      none demoSelectExpr "user" rfl rfl⟩

end Dalchemy
